import Mathlib

/-!
# Verification of the MySound audio engine (shallow embedding)

This file embeds the core of the repository's sound subsystem in Lean 4 and
proves properties of the embedded definitions.  Conventions for the
embedding:

* C++ `float`/`double` arithmetic is idealised as exact rational arithmetic
  (`ℚ`).  No claim below depends on rounding behaviour of IEEE floats.
* External SDL math routines (`SDL_sinf`, `SDL_cosf`, `SDL_powf`) are taken
  as function parameters; theorems assume only their documented range
  (e.g. `|sin| ≤ 1`).  `SDL_clamp` is translated literally.
* Mutable objects become records; each C++ member function becomes a Lean
  function from the record to an updated record (plus a return value where
  the source returns one).
* Wall-clock reads (`SDL_GetTicks`) are abstracted: the per-tick delta time
  that the source computes from two clock reads becomes an explicit `ℚ`
  argument of the tick functions.
* Fields whose name ends in `ghost...` are proof instrumentation only: they
  are written but never read by any embedded operation, so they cannot
  influence control flow; they let theorems count events (e.g. completed
  traversals of a note list).
-/

namespace MySound

/-- `SDL_clamp(x, lo, hi)`: literal translation of SDL's clamp macro. -/
def sdlClamp (x lo hi : ℚ) : ℚ :=
  if x < lo then lo else if x > hi then hi else x

theorem sdlClamp_mem {x lo hi : ℚ} (h : lo ≤ hi) :
    lo ≤ sdlClamp x lo hi ∧ sdlClamp x lo hi ≤ hi := by
  unfold sdlClamp
  split
  · exact ⟨le_refl _, h⟩
  · split
    · exact ⟨h, le_refl _⟩
    · constructor <;> linarith [not_lt.mp (by assumption : ¬ x < lo)]

theorem sdlClamp_eq_self {x lo hi : ℚ} (h1 : lo ≤ x) (h2 : x ≤ hi) :
    sdlClamp x lo hi = x := by
  unfold sdlClamp
  rw [if_neg (not_lt.mpr h1), if_neg (not_lt.mpr h2)]

/-! ## Envelope (src/sound/core/envelope.cc, envelope.h)

The four-phase ADSR gain state machine.  `process` is driven once per
sample; it both mutates the envelope and returns the level used for that
sample, so the embedding returns a pair `(returned level, new envelope)`. -/

inductive EnvState where
  | Idle | Attack | Decay | Sustain | Release
deriving DecidableEq, Repr

structure Envelope where
  attackTime : ℚ
  decayTime : ℚ
  sustainLevel : ℚ
  releaseTime : ℚ
  state : EnvState
  currentLevel : ℚ
  releaseLevel : ℚ
deriving DecidableEq, Repr

/-- Constructor defaults (sound_constants.h): attack 0.01, decay 0.1,
sustain 0.7, release 0.2, state Idle, both levels 0. -/
def Envelope.init : Envelope :=
  { attackTime := 1/100, decayTime := 1/10, sustainLevel := 7/10
    releaseTime := 1/5, state := .Idle, currentLevel := 0, releaseLevel := 0 }

def Envelope.setADSR (a d s r : ℚ) (e : Envelope) : Envelope :=
  { e with attackTime := a, decayTime := d,
           sustainLevel := sdlClamp s 0 1, releaseTime := r }

def Envelope.setAttackTime (t : ℚ) (e : Envelope) : Envelope :=
  { e with attackTime := t }

def Envelope.setDecayTime (t : ℚ) (e : Envelope) : Envelope :=
  { e with decayTime := t }

def Envelope.setSustainLevel (lvl : ℚ) (e : Envelope) : Envelope :=
  { e with sustainLevel := sdlClamp lvl 0 1 }

def Envelope.setReleaseTime (t : ℚ) (e : Envelope) : Envelope :=
  { e with releaseTime := t }

def Envelope.noteOn (e : Envelope) : Envelope :=
  { e with state := .Attack, currentLevel := 0 }

/-- `noteOff` only acts when the state is not `Idle` (guard in the source). -/
def Envelope.noteOff (e : Envelope) : Envelope :=
  if e.state ≠ EnvState.Idle then
    { e with state := .Release, releaseLevel := e.currentLevel }
  else e

/-- `Envelope::process(int sample_rate)`.  Returns the level for this sample
together with the updated envelope.  `dt = 1 / sample_rate`. -/
def Envelope.process (sampleRate : ℕ) (e : Envelope) : ℚ × Envelope :=
  let dt : ℚ := 1 / (sampleRate : ℚ)
  match e.state with
  | .Idle => (0, e)
  | .Attack =>
      if e.attackTime > 0 then
        let lvl := e.currentLevel + dt / e.attackTime
        if lvl ≥ 1 then (1, { e with currentLevel := 1, state := .Decay })
        else (lvl, { e with currentLevel := lvl })
      else (1, { e with currentLevel := 1, state := .Decay })
  | .Decay =>
      if e.decayTime > 0 then
        let lvl := e.currentLevel - dt * (1 - e.sustainLevel) / e.decayTime
        if lvl ≤ e.sustainLevel then
          (e.sustainLevel, { e with currentLevel := e.sustainLevel, state := .Sustain })
        else (lvl, { e with currentLevel := lvl })
      else
        (e.sustainLevel, { e with currentLevel := e.sustainLevel, state := .Sustain })
  | .Sustain => (e.sustainLevel, e)
  | .Release =>
      if e.releaseTime > 0 then
        let lvl := e.releaseLevel * (1 - dt / e.releaseTime)
        if lvl ≤ 0 then
          (0, { e with currentLevel := 0, releaseLevel := lvl, state := .Idle })
        else (lvl, { e with currentLevel := lvl, releaseLevel := lvl })
      else (0, { e with currentLevel := 0, state := .Idle })

/-- The command surface of `Envelope` exercised by C5: note gate changes,
per-sample processing, and the parameter setters. -/
inductive EnvOp where
  | noteOn
  | noteOff
  | process (sampleRate : ℕ)
  | setAttackTime (t : ℚ)
  | setDecayTime (t : ℚ)
  | setSustainLevel (lvl : ℚ)
  | setReleaseTime (t : ℚ)
  | setADSR (a d s r : ℚ)

def EnvOp.apply : EnvOp → Envelope → Envelope
  | .noteOn, e => e.noteOn
  | .noteOff, e => e.noteOff
  | .process sr, e => (e.process sr).2
  | .setAttackTime t, e => e.setAttackTime t
  | .setDecayTime t, e => e.setDecayTime t
  | .setSustainLevel lvl, e => e.setSustainLevel lvl
  | .setReleaseTime t, e => e.setReleaseTime t
  | .setADSR a d s r, e => e.setADSR a d s r

/-- Side condition on an operation: `process` is only called with a
positive sample rate (`int sample_rate > 0`). -/
def EnvOp.ok : EnvOp → Prop
  | .process sr => 1 ≤ sr
  | _ => True

def Envelope.runOps (ops : List EnvOp) (e : Envelope) : Envelope :=
  ops.foldl (fun e op => op.apply e) e

/-- Reachability invariant of the envelope: the held level and the sustain
level stay in `[0,1]`, and while in Release the recorded release level is
also in `[0,1]`. -/
def EnvInv (e : Envelope) : Prop :=
  0 ≤ e.currentLevel ∧ e.currentLevel ≤ 1 ∧
  0 ≤ e.sustainLevel ∧ e.sustainLevel ≤ 1 ∧
  (e.state = EnvState.Release → 0 ≤ e.releaseLevel ∧ e.releaseLevel ≤ 1)

/-- Iterated per-sample processing (the gate is held: no `noteOff`). -/
def Envelope.processIter (sr : ℕ) : ℕ → Envelope → Envelope
  | 0, e => e
  | n + 1, e => Envelope.processIter sr n (e.process sr).2

/-- A concrete envelope sitting in the Sustain phase, used as a witness
input. -/
def envSustainSample : Envelope :=
  { Envelope.init with state := .Sustain, currentLevel := 7/10 }


/-! ## Oscillator (src/sound/core/oscillator.h)

`generate` switches on the wave type.  The C++ `WaveType` is an
`enum class` over `int` (Sine = 0, Square = 1, Sawtooth = 2, Noise = 3);
the `default:` arm of the switch is reachable only through an out-of-range
integer cast into the enum, so the embedding switches on the underlying
integer code.  `SDL_sinf` is an external library routine, passed in as the
parameter `sinf`; `sdlPiF` is the exact value of the binary32 float
constant `SDL_PI_F`.  The mutable LCG state `noise_state_` is threaded
explicitly: `generate` returns the pair (sample, new noise state). -/

/-- The exact rational value of the float constant `SDL_PI_F`. -/
def sdlPiF : ℚ := 13176795 / 4194304

/-- One step of the 32-bit LCG: `key = key * 1664525 + 1013904223`
(sound_constants.h), with 32-bit wraparound made explicit. -/
def lcgNext (state : ℕ) : ℕ := (state * 1664525 + 1013904223) % 2 ^ 32

/-- Reinterpret a 32-bit unsigned value as a signed `int32_t`. -/
def int32OfUInt32 (s : ℕ) : ℤ := if s < 2 ^ 31 then (s : ℤ) else (s : ℤ) - 2 ^ 32

/-- `Oscillator::generateNoise`: advance the LCG and normalise the signed
reinterpretation by 2^31. -/
def generateNoise (state : ℕ) : ℚ × ℕ :=
  let s := lcgNext state
  (((int32OfUInt32 s : ℤ) : ℚ) / 2147483648, s)

/-- `Oscillator::generate(phase)`: waveform sample for a phase in [0,1].
`wave` is the underlying integer value of the `WaveType` enum. -/
def Oscillator.generate (sinf : ℚ → ℚ) (wave : ℤ) (phase : ℚ) (noiseState : ℕ) :
    ℚ × ℕ :=
  if wave = 0 then (sinf (2 * sdlPiF * phase), noiseState)
  else if wave = 1 then (if phase < 1/2 then 1 else -1, noiseState)
  else if wave = 2 then (2 * phase - 1, noiseState)
  else if wave = 3 then generateNoise noiseState
  else (0, noiseState)


/-! ## BiquadFilter (src/sound/effect/biquad_filter.cc)

The embedding records the filter parameters.  The five coefficients are a
pure cache over (type, frequency, Q, gain, detune, sample rate), computed
by `updateCoefficients` from transcendental cookbook formulas; the setters
below only decide WHEN that recomputation happens, so the coefficient
fields are omitted from the record and `getDetunedFrequency` (the one
parameter-to-frequency step named by the spec) is embedded with the
external `SDL_powf(2, x)` as the parameter `pow2`. -/

inductive BiquadFilterType where
  | Lowpass | Highpass | Bandpass | Lowshelf | Highshelf | Peaking | Notch | Allpass
deriving DecidableEq, Repr

structure BiquadFilter where
  sampleRate : ℤ
  type : BiquadFilterType
  frequency : ℚ
  q : ℚ
  gain : ℚ
  detune : ℚ
deriving DecidableEq, Repr

/-- Constructor defaults: Lowpass, 1000 Hz, Q 1, gain 0, detune 0. -/
def BiquadFilter.mkFilter (sampleRate : ℤ) : BiquadFilter :=
  { sampleRate := sampleRate, type := .Lowpass, frequency := 1000,
    q := 1, gain := 0, detune := 0 }

/-- `setFrequency`: clamp to [10 Hz, nyquist - 1] with
`nyquist = sample_rate / 2.0`. -/
def BiquadFilter.setFrequency (freq : ℚ) (f : BiquadFilter) : BiquadFilter :=
  let nyquist : ℚ := (f.sampleRate : ℚ) / 2
  let freq := sdlClamp freq 10 (nyquist - 1)
  if f.frequency ≠ freq then { f with frequency := freq } else f

/-- `setQ`: clamp to [0.0001, 1000]. -/
def BiquadFilter.setQ (q : ℚ) (f : BiquadFilter) : BiquadFilter :=
  let q := sdlClamp q (1/10000) 1000
  if f.q ≠ q then { f with q := q } else f

/-- `setGain`: clamp to [-40, 40] dB. -/
def BiquadFilter.setGain (gain : ℚ) (f : BiquadFilter) : BiquadFilter :=
  let gain := sdlClamp gain (-40) 40
  if f.gain ≠ gain then { f with gain := gain } else f

/-- `setDetune`: clamp to [-1200, 1200] cents. -/
def BiquadFilter.setDetune (detune : ℚ) (f : BiquadFilter) : BiquadFilter :=
  let detune := sdlClamp detune (-1200) 1200
  if f.detune ≠ detune then { f with detune := detune } else f

/-- `getDetunedFrequency`: `frequency * 2^(detune/1200)`, computed before
the coefficients are derived; `pow2 x` models the external
`SDL_powf(2, x)`. -/
def BiquadFilter.getDetunedFrequency (pow2 : ℚ → ℚ) (f : BiquadFilter) : ℚ :=
  if f.detune = 0 then f.frequency
  else f.frequency * pow2 (f.detune / 1200)

/-! ## AudioMixer parameter path (src/unnamed/part_011)

Only the state touched by `setSendLevel` / `setPan` is embedded: the
per-synthesizer send-level rows and the channel count.  `std::cos` /
`std::sin` are external routines, passed as parameters; `mPi` is the
value of the double constant `M_PI` rounded to binary64. -/

/-- The exact rational value of the binary64 double constant `M_PI`. -/
def mPi : ℚ := 884279719003555 / 281474976710656

structure AudioMixer where
  sampleRate : ℤ
  numOutputChannels : ℤ
  masterVolume : ℚ
  sendLevels : List (List ℚ)
deriving DecidableEq, Repr

def AudioMixer.setVolume (volume : ℚ) (m : AudioMixer) : AudioMixer :=
  { m with masterVolume := sdlClamp volume 0 1 }

/-- Update index `i` of a list with `f`, leaving other entries alone. -/
def listUpdate {α : Type} (l : List α) (i : ℕ) (f : α → α) : List α :=
  l.mapIdx (fun j x => if j = i then f x else x)

/-- `setSendLevel`: bounds-checked no-op on invalid indices, otherwise the
stored level is clamped to [0,1]. -/
def AudioMixer.setSendLevel (synthIndex outputChannel : ℕ) (level : ℚ)
    (m : AudioMixer) : AudioMixer :=
  if synthIndex ≥ m.sendLevels.length then m
  else if (outputChannel : ℤ) ≥ m.numOutputChannels then m
  else
    let upd := fun row => listUpdate row outputChannel (fun _ => sdlClamp level 0 1)
    { m with sendLevels := listUpdate m.sendLevels synthIndex upd }

/-- The clamped pan used by `setPan` (the line
`pan = SDL_clamp(pan, -1.0f, 1.0f)`). -/
def AudioMixer.clampedPan (pan : ℚ) : ℚ := sdlClamp pan (-1) 1

/-- `setPan`: only supported for 2-channel output; derives the stereo send
levels from the clamped pan by the equal-power law
`angle = (pan + 1) * 0.25 * M_PI`, `L = cos angle`, `R = sin angle`. -/
def AudioMixer.setPan (cosf sinf : ℚ → ℚ) (synthIndex : ℕ) (pan : ℚ)
    (m : AudioMixer) : AudioMixer :=
  if m.numOutputChannels ≠ 2 then m
  else
    let p := AudioMixer.clampedPan pan
    let angle := (p + 1) * (1/4) * mPi
    let leftLevel := cosf angle
    let rightLevel := sinf angle
    (m.setSendLevel synthIndex 0 leftLevel).setSendLevel synthIndex 1 rightLevel


/-! ## Note data, music utilities, FixedNoteSequence and the MML scanner
(src/unnamed/part_011 note.h, src/sound/utilities/music_utilities.h,
src/sound/utilities/fixed_note_sequence.h, src/sound/mml/mml_parser.h)

`Note` is an `enum class` over `int` with values 0 (C) .. 11 (B); the
parser does modular arithmetic on those values, so the embedding uses the
underlying natural number.  The single-pass scanner advances at least one
character per loop iteration; the embedding recurses on a fuel counter
initialised to the input length, which therefore never runs out.
`parseNumber` models the C++ `int` accumulator with an unbounded natural
(no claim involves inputs long enough to overflow a C++ int). -/

/-- `WaveType` (src/sound/types/wave_type.h). -/
inductive WaveType where
  | Sine | Square | Sawtooth | Noise
deriving DecidableEq, Repr

structure NoteData where
  note : ℕ
  octave : ℤ
  duration : ℚ
  isRest : Bool
  waveType : WaveType
  volume : ℚ
deriving DecidableEq, Repr

/-- `MAX_NOTE_SEQUENCE_SIZE` (sound_constants.h). -/
def MAX_NOTE_SEQUENCE_SIZE : ℕ := 512

/-- `MusicUtil::noteDuration`: quarter note = 60/bpm seconds, scaled by
4/division, times 1.5 when dotted. -/
def MusicUtil.noteDuration (bpm : ℚ) (noteDivision : ℕ) (dotted : Bool) : ℚ :=
  let quarterNote := 60 / bpm
  let duration := quarterNote * 4 / (noteDivision : ℚ)
  if dotted then duration * (3/2) else duration

structure FixedNoteSequence where
  notes : List NoteData
deriving DecidableEq, Repr

def FixedNoteSequence.empty : FixedNoteSequence := ⟨[]⟩

def FixedNoteSequence.size (s : FixedNoteSequence) : ℕ := s.notes.length

/-- `FixedNoteSequence::push_back`: silently drops the note once the size
has reached capacity. -/
def FixedNoteSequence.push_back (s : FixedNoteSequence) (n : NoteData) :
    FixedNoteSequence :=
  if s.size < MAX_NOTE_SEQUENCE_SIZE then ⟨s.notes ++ [n]⟩ else s

/-- `constexpr_tolower`. -/
def constexprTolower (c : Char) : Char :=
  if 'A' ≤ c ∧ c ≤ 'Z' then Char.ofNat (c.toNat + 32) else c

/-- `constexpr_isspace`. -/
def constexprIsspace (c : Char) : Bool :=
  c = ' ' || c = Char.ofNat 9 || c = Char.ofNat 10 || c = Char.ofNat 13 ||
    c = Char.ofNat 12 || c = Char.ofNat 11

/-- `constexpr_isdigit`. -/
def constexprIsdigit (c : Char) : Bool := '0' ≤ c && c ≤ '9'

/-- `charToNote` (values of the `Note` enum). -/
def charToNote (c : Char) : ℕ :=
  if c = 'c' then 0
  else if c = 'd' then 2
  else if c = 'e' then 4
  else if c = 'f' then 5
  else if c = 'g' then 7
  else if c = 'a' then 9
  else if c = 'b' then 11
  else 0

def parseNumberAux (acc : ℕ) : List Char → ℕ × List Char
  | [] => (acc, [])
  | c :: rest =>
      if constexprIsdigit c then
        parseNumberAux (acc * 10 + (c.toNat - Char.toNat '0')) rest
      else (acc, c :: rest)

/-- `parseNumber`: consume leading digits, returning the value and the
remaining input (the C++ version advances the position reference). -/
def parseNumber (cs : List Char) : ℕ × List Char := parseNumberAux 0 cs

/-- `i < mml.length() && constexpr_isdigit(mml[i])` on the remaining input. -/
def headIsDigit : List Char → Bool
  | c :: _ => constexprIsdigit c
  | [] => false

/-- `i < mml.length() && mml[i] == ch` on the remaining input. -/
def headIs (ch : Char) : List Char → Bool
  | c :: _ => c = ch
  | [] => false

/-- The five mutable parse-state fields of `MMLParser::parse`. -/
structure MMLState where
  bpm : ℚ
  defaultLength : ℕ
  octave : ℕ
  waveType : WaveType
  volume : ℚ
deriving DecidableEq, Repr

/-- The `@<n>` branch: select the wave type for codes 0-3, else keep. -/
def MMLParser.applyWave (st : MMLState) (wave : ℕ) : MMLState :=
  if wave = 0 then { st with waveType := WaveType.Sine }
  else if wave = 1 then { st with waveType := WaveType.Square }
  else if wave = 2 then { st with waveType := WaveType.Sawtooth }
  else if wave = 3 then { st with waveType := WaveType.Noise }
  else st

/-- The `v<n>` branch: map v0-v15 linearly onto [0,1] and clamp. -/
def MMLParser.applyVolume (st : MMLState) (vol : ℕ) : MMLState :=
  let v := (vol : ℚ) / 15
  let v := if v < 0 then 0 else v
  let v := if v > 1 then 1 else v
  { st with volume := v }

/-- After `r`: consume an optional length and an optional dot, and return
the rest duration together with the remaining input. -/
def MMLParser.restTail (st : MMLState) (rest : List Char) : ℚ × List Char :=
  let lenRest := if headIsDigit rest then parseNumber rest else (st.defaultLength, rest)
  let dotRest := if headIs '.' lenRest.2 then (true, lenRest.2.tail) else (false, lenRest.2)
  (MusicUtil.noteDuration st.bpm lenRest.1 dotRest.1, dotRest.2)

/-- After a note letter: consume an optional accidental (`+`/`#`/`-`), an
optional length and an optional dot; return the adjusted note value, the
duration and the remaining input. -/
def MMLParser.noteTail (st : MMLState) (note : ℕ) (rest : List Char) :
    ℕ × ℚ × List Char :=
  let noteRest : ℕ × List Char :=
    if headIs '+' rest || headIs '#' rest then ((note + 1) % 12, rest.tail)
    else if headIs '-' rest then ((note + 11) % 12, rest.tail)
    else (note, rest)
  let lenRest :=
    if headIsDigit noteRest.2 then parseNumber noteRest.2
    else (st.defaultLength, noteRest.2)
  let dotRest := if headIs '.' lenRest.2 then (true, lenRest.2.tail) else (false, lenRest.2)
  (noteRest.1, MusicUtil.noteDuration st.bpm lenRest.1 dotRest.1, dotRest.2)

/-- The scanning loop of `MMLParser::parse`, one recursive call per loop
iteration.  Branches appear in source order; unrecognized characters fall
through to the final branch and are skipped. -/
def MMLParser.parseLoop : ℕ → MMLState → List Char → FixedNoteSequence →
    FixedNoteSequence
  | 0, _, _, acc => acc
  | _ + 1, _, [], acc => acc
  | fuel + 1, st, ch :: rest, acc =>
      let c := constexprTolower ch
      if constexprIsspace c then MMLParser.parseLoop fuel st rest acc
      else if c = 't' then
        let pr := parseNumber rest
        MMLParser.parseLoop fuel
          (if pr.1 > 0 then { st with bpm := (pr.1 : ℚ) } else st) pr.2 acc
      else if c = 'l' then
        let pr := parseNumber rest
        MMLParser.parseLoop fuel
          (if pr.1 > 0 then { st with defaultLength := pr.1 } else st) pr.2 acc
      else if c = 'o' then
        let pr := parseNumber rest
        -- `oct >= 0` always holds for the digit-string value
        MMLParser.parseLoop fuel
          (if pr.1 ≤ 8 then { st with octave := pr.1 } else st) pr.2 acc
      else if c = '@' then
        let pr := parseNumber rest
        MMLParser.parseLoop fuel (MMLParser.applyWave st pr.1) pr.2 acc
      else if c = 'v' then
        let pr := parseNumber rest
        MMLParser.parseLoop fuel (MMLParser.applyVolume st pr.1) pr.2 acc
      else if c = '>' then
        MMLParser.parseLoop fuel
          (if st.octave < 8 then { st with octave := st.octave + 1 } else st) rest acc
      else if c = '<' then
        MMLParser.parseLoop fuel
          (if st.octave > 0 then { st with octave := st.octave - 1 } else st) rest acc
      else if c = 'r' then
        let dr := MMLParser.restTail st rest
        MMLParser.parseLoop fuel st dr.2
          (acc.push_back ⟨0, 0, dr.1, true, st.waveType, st.volume⟩)
      else if 'a' ≤ c ∧ c ≤ 'g' then
        let nd := MMLParser.noteTail st (charToNote c) rest
        MMLParser.parseLoop fuel st nd.2.2
          (acc.push_back
            ⟨nd.1, (st.octave : ℤ), nd.2.1, false, st.waveType, st.volume⟩)
      else MMLParser.parseLoop fuel st rest acc

/-- `MMLParser::parse` with its default parse state (t120, l4, o4, sine,
volume 1). -/
def MMLParser.parse (mml : String) : FixedNoteSequence :=
  MMLParser.parseLoop mml.length
    { bpm := 120, defaultLength := 4, octave := 4, waveType := .Sine, volume := 1 }
    mml.data FixedNoteSequence.empty


/-! ## NoteData.getFrequency (src/unnamed/part_011 note.h)

`constexpr_pow(base, exp)` approximates `base^exp` by a 19-term Taylor
expansion of `exp(x * ln 2)` — the `base` argument is unused in the
source (ln 2 is hard-coded), and the embedding keeps that quirk. -/

def constexprPow (base exp : ℚ) : ℚ :=
  let x := exp * (693147 / 1000000)
  let rt := (List.range' 1 19).foldl
    (fun (rt : ℚ × ℚ) i =>
      let term := rt.2 * x / (i : ℚ)
      (rt.1 + term, term))
    (1, 1)
  rt.1

/-- `NoteData::getFrequency`: 440 Hz reference at A4 (octave 4, note 9). -/
def NoteData.getFrequency (nd : NoteData) : ℚ :=
  if nd.isRest then 0
  else
    let semitonesFromA4 : ℤ := (nd.octave - 4) * 12 + ((nd.note : ℤ) - 9)
    440 * constexprPow 2 ((semitonesFromA4 : ℚ) / 12)

/-! ## SimpleSynthesizer (src/sound/core/synthesizer.cc)

Only the command-side state is embedded; `generateSamples` runs on the
pull-driven audio callback, which is outside the per-frame/tick model (so
`current_sample_` only ever changes through `noteOn`, which resets it).
`hasStream` records whether `SDL_OpenAudioDeviceStream` succeeded; when it
is false, `noteOn` is a logged no-op. -/

structure SimpleSynthesizer where
  hasStream : Bool
  sampleRate : ℕ
  oscWaveType : WaveType
  oscFrequency : ℚ
  currentSample : ℕ
  masterVolume : ℚ
  noteVolume : ℚ
  isPlaying : Bool
  gate : Bool
  noteOnTime : ℚ
  noteOffTime : ℚ
  noteDuration : ℚ
  env : Envelope
deriving DecidableEq, Repr

def SimpleSynthesizer.mkSynth (sampleRate : ℕ) (hasStream : Bool) :
    SimpleSynthesizer :=
  { hasStream := hasStream, sampleRate := sampleRate, oscWaveType := .Sine,
    oscFrequency := 440, currentSample := 0, masterVolume := 1, noteVolume := 1,
    isPlaying := false, gate := false, noteOnTime := 0, noteOffTime := 0,
    noteDuration := 0, env := Envelope.init }

def SimpleSynthesizer.getCurrentTime (s : SimpleSynthesizer) : ℚ :=
  (s.currentSample : ℚ) / (s.sampleRate : ℚ)

def SimpleSynthesizer.noteOn (frequency duration volume : ℚ)
    (s : SimpleSynthesizer) : SimpleSynthesizer :=
  if ¬ s.hasStream then s
  else
    { s with oscFrequency := frequency, currentSample := 0, noteOnTime := 0,
             noteOffTime := 0, noteDuration := duration,
             noteVolume := sdlClamp volume 0 1, gate := true, isPlaying := true,
             env := s.env.noteOn }

/-- `SimpleSynthesizer::noteOff` is guarded by `if (gate_)`. -/
def SimpleSynthesizer.noteOff (s : SimpleSynthesizer) : SimpleSynthesizer :=
  if s.gate then
    { s with noteOffTime := s.getCurrentTime, gate := false,
             env := s.env.noteOff }
  else s

def SimpleSynthesizer.setWaveType (w : WaveType) (s : SimpleSynthesizer) :
    SimpleSynthesizer :=
  { s with oscWaveType := w }

def SimpleSynthesizer.setVolume (volume : ℚ) (s : SimpleSynthesizer) :
    SimpleSynthesizer :=
  { s with masterVolume := sdlClamp volume 0 1 }

/-- `SimpleSynthesizer::update`: auto note-off for expired finite
durations, then mark not-playing once the envelope reached Idle after the
gate dropped. -/
def SimpleSynthesizer.update (s : SimpleSynthesizer) : SimpleSynthesizer :=
  if ¬ s.isPlaying then s
  else
    let s :=
      if s.gate ∧ s.noteDuration > 0 ∧ s.getCurrentTime ≥ s.noteDuration then
        s.noteOff
      else s
    if ¬ s.gate ∧ s.env.state = EnvState.Idle then { s with isPlaying := false }
    else s

/-! ## Sequencer (src/unnamed/part_006, src/sound/sequencer/sequencer.h)

The periodic SDL timer is modelled by `timerArmed` plus explicit delta
times fed to `internalUpdate` (the source computes the delta from two
`SDL_GetTicks` reads).  Calls the sequencer issues to its synthesizer are
both applied to the embedded synthesizer state and logged as
`SynthEvent`s, so theorems can state that no call was issued.
`ghostTraversals` is instrumentation (see the file header): it counts
completed traversals of the note list and is never read. -/

inductive SynthEvent where
  | noteOff
  | setWaveType (w : WaveType)
  | noteOn (frequency duration volume : ℚ)
deriving DecidableEq, Repr

structure Sequencer where
  synth : SimpleSynthesizer
  bpm : ℚ
  volume : ℚ
  sequence : List NoteData
  currentNoteIndex : ℕ
  isPlaying : Bool
  sequenceTime : ℚ
  loopEnabled : Bool
  loopCount : ℤ
  currentLoop : ℤ
  timerArmed : Bool
  ghostTraversals : ℕ
deriving DecidableEq, Repr

def Sequencer.mkSeq (synth : SimpleSynthesizer) (bpm : ℚ) : Sequencer :=
  { synth := synth, bpm := bpm, volume := 1, sequence := [],
    currentNoteIndex := 0, isPlaying := false, sequenceTime := 0,
    loopEnabled := false, loopCount := -1, currentLoop := 0,
    timerArmed := false, ghostTraversals := 0 }

def Sequencer.setLoop (enabled : Bool) (count : ℤ) (s : Sequencer) : Sequencer :=
  { s with loopEnabled := enabled, loopCount := count }

def Sequencer.setVolume (volume : ℚ) (s : Sequencer) : Sequencer :=
  { s with volume := sdlClamp volume 0 1 }

def Sequencer.setSequence (notes : List NoteData) (s : Sequencer) : Sequencer :=
  { s with sequence := notes }

def Sequencer.playCurrentNote (s : Sequencer) : Sequencer × List SynthEvent :=
  if h : s.currentNoteIndex < s.sequence.length then
    let nd := s.sequence.get ⟨s.currentNoteIndex, h⟩
    if nd.isRest then ({ s with synth := s.synth.noteOff }, [.noteOff])
    else
      let finalVolume := s.volume * nd.volume
      let frequency := nd.getFrequency
      let s2 := { s with synth :=
        (s.synth.setWaveType nd.waveType).noteOn frequency nd.duration finalVolume }
      (s2, [.setWaveType nd.waveType, .noteOn frequency nd.duration finalVolume])
  else (s, [])

/-- `Sequencer::play`: early return on an empty note list; otherwise reset
position, trigger the first note and arm the timer.  (The
`last_update_time_` clock read is abstracted away.) -/
def Sequencer.play (s : Sequencer) : Sequencer × List SynthEvent :=
  if s.sequence.isEmpty then (s, [])
  else
    let s := { s with currentNoteIndex := 0, sequenceTime := 0,
                      currentLoop := 0, isPlaying := true }
    let pcn := s.playCurrentNote
    ({ pcn.1 with timerArmed := true }, pcn.2)

def Sequencer.stop (s : Sequencer) : Sequencer × List SynthEvent :=
  ({ s with isPlaying := false, synth := s.synth.noteOff, timerArmed := false },
    [.noteOff])

def Sequencer.handleSequenceEnd (s : Sequencer) : Sequencer × List SynthEvent :=
  -- ghost counter: one more full traversal of the note list just finished
  let s := { s with ghostTraversals := s.ghostTraversals + 1 }
  if ¬ s.loopEnabled then ({ s with isPlaying := false }, [])
  else if s.loopCount ≥ 0 then
    let s2 := { s with currentLoop := s.currentLoop + 1 }
    if s2.currentLoop > s2.loopCount then ({ s2 with isPlaying := false }, [])
    else
      Sequencer.playCurrentNote { s2 with currentNoteIndex := 0, sequenceTime := 0 }
  else
    Sequencer.playCurrentNote { s with currentNoteIndex := 0, sequenceTime := 0 }

/-- `Sequencer::internalUpdate`, with the measured delta time passed in. -/
def Sequencer.internalUpdate (deltaTime : ℚ) (s : Sequencer) :
    Sequencer × List SynthEvent :=
  if ¬ s.isPlaying ∨ s.sequence.isEmpty then (s, [])
  else
    let s := { s with sequenceTime := s.sequenceTime + deltaTime }
    if h : s.currentNoteIndex < s.sequence.length then
      let nd := s.sequence.get ⟨s.currentNoteIndex, h⟩
      if s.sequenceTime ≥ nd.duration then
        let s2 := { s with sequenceTime := s.sequenceTime - nd.duration,
                           currentNoteIndex := s.currentNoteIndex + 1 }
        if s2.currentNoteIndex < s2.sequence.length then s2.playCurrentNote
        else s2.handleSequenceEnd
      else (s, [])
    else (s, [])

/-- Fold a list of tick delta times through `internalUpdate`, discarding
the event log. -/
def Sequencer.runTicks (ds : List ℚ) (s : Sequencer) : Sequencer :=
  ds.foldl (fun s d => (s.internalUpdate d).1) s

/-! ## MultiTrackSequencer (src/sound/sequencer/multi_track_sequencer.cc)

Each C++ (synthesizer, sequencer) pair becomes one embedded `Sequencer`
(which owns its synthesizer state); the owned `AudioMixer` is represented
by the one field the embedded operations touch, its master volume. -/

structure MultiTrackSequencer where
  trackCount : ℕ
  bpm : ℚ
  masterVolume : ℚ
  isPaused : Bool
  mixerVolume : ℚ
  seqs : List Sequencer
deriving DecidableEq, Repr

def MultiTrackSequencer.setMasterVolume (volume : ℚ) (m : MultiTrackSequencer) :
    MultiTrackSequencer :=
  let mv := sdlClamp volume 0 1
  -- the mixer's own setVolume clamps again
  { m with masterVolume := mv, mixerVolume := sdlClamp mv 0 1 }

def MultiTrackSequencer.setLoop (enabled : Bool) (count : ℤ)
    (m : MultiTrackSequencer) : MultiTrackSequencer :=
  { m with seqs := m.seqs.map (Sequencer.setLoop enabled count) }

def MultiTrackSequencer.play (m : MultiTrackSequencer) : MultiTrackSequencer :=
  { m with isPaused := false, seqs := m.seqs.map (fun sq => sq.play.1) }

def MultiTrackSequencer.stop (m : MultiTrackSequencer) : MultiTrackSequencer :=
  { m with isPaused := false, seqs := m.seqs.map (fun sq => sq.stop.1) }

def MultiTrackSequencer.isPlaying (m : MultiTrackSequencer) : Bool :=
  m.seqs.any (fun sq => sq.isPlaying)

/-- `MultiTrackSequencer::update`: per-frame housekeeping of every
synthesizer (`Sequencer::update` itself is deliberately a no-op). -/
def MultiTrackSequencer.update (m : MultiTrackSequencer) : MultiTrackSequencer :=
  { m with seqs := m.seqs.map (fun sq => { sq with synth := sq.synth.update }) }

/-! ## BGMManager (src/unnamed/part_007, src/unnamed/part_005)

The id→song `unordered_map` becomes an association list; the raw
`MultiTrackSequencer*` held by a `FadeState` becomes the optional id of
the referenced song (`none` models the nulled pointer), and every call
through that pointer becomes an in-place update of the map entry.  The
empty C++ id string denotes "no current BGM". -/

structure FadeState where
  bgm : Option String
  bgmId : String
  currentVolume : ℚ
  targetVolume : ℚ
  fadeDuration : ℚ
  elapsedTime : ℚ
  isFading : Bool
deriving DecidableEq, Repr

def FadeState.initFade : FadeState :=
  { bgm := none, bgmId := "", currentVolume := 0, targetVolume := 0,
    fadeDuration := 0, elapsedTime := 0, isFading := false }

/-- Apply `f` to the map entries whose key is `id` (a call through a
pointer obtained from the map). -/
def bgmUpdateAt (id : String) (f : MultiTrackSequencer → MultiTrackSequencer)
    (l : List (String × MultiTrackSequencer)) :
    List (String × MultiTrackSequencer) :=
  l.map (fun p => if p.1 = id then (p.1, f p.2) else p)

structure BGMManager where
  masterVolume : ℚ
  currentBgmId : String
  bgmMap : List (String × MultiTrackSequencer)
  fadeIn : FadeState
  fadeOut : FadeState
deriving DecidableEq, Repr

def BGMManager.getBGM (id : String) (m : BGMManager) :
    Option MultiTrackSequencer :=
  m.bgmMap.lookup id

/-- First phase of `BGMManager::stop`: stop the current BGM and clear the
current id. -/
def BGMManager.stopCurrent (m : BGMManager) : BGMManager :=
  if m.currentBgmId ≠ "" then
    { m with bgmMap := bgmUpdateAt m.currentBgmId MultiTrackSequencer.stop m.bgmMap,
             currentBgmId := "" }
  else m

/-- Second phase of `BGMManager::stop`: stop a fading-in BGM. -/
def BGMManager.stopFadeIn (m : BGMManager) : BGMManager :=
  if m.fadeIn.isFading ∧ m.fadeIn.bgm.isSome then
    { m with
      bgmMap := bgmUpdateAt (m.fadeIn.bgm.getD "") MultiTrackSequencer.stop m.bgmMap,
      fadeIn := { m.fadeIn with isFading := false } }
  else m

/-- Third phase of `BGMManager::stop`: stop a fading-out BGM. -/
def BGMManager.stopFadeOut (m : BGMManager) : BGMManager :=
  if m.fadeOut.isFading ∧ m.fadeOut.bgm.isSome then
    { m with
      bgmMap := bgmUpdateAt (m.fadeOut.bgm.getD "") MultiTrackSequencer.stop m.bgmMap,
      fadeOut := { m.fadeOut with isFading := false } }
  else m

def BGMManager.stop (m : BGMManager) : BGMManager :=
  m.stopCurrent.stopFadeIn.stopFadeOut

/-- `BGMManager::playWithCrossfade(id, fade_duration)`. -/
def BGMManager.playWithCrossfade (id : String) (fadeDuration : ℚ)
    (m : BGMManager) : Bool × BGMManager :=
  match m.bgmMap.lookup id with
  | none => (false, m)
  | some _ =>
      if m.currentBgmId = id then (true, m)
      else
        let m :=
          if m.currentBgmId ≠ "" ∧ (m.bgmMap.lookup m.currentBgmId).isSome then
            { m with fadeOut :=
              { bgm := some m.currentBgmId, bgmId := m.currentBgmId,
                currentVolume := m.masterVolume, targetVolume := 0,
                fadeDuration := fadeDuration, elapsedTime := 0, isFading := true } }
          else m
        let m := { m with fadeIn :=
          { bgm := some id, bgmId := id, currentVolume := 0,
            targetVolume := m.masterVolume, fadeDuration := fadeDuration,
            elapsedTime := 0, isFading := true } }
        let m :=
          { m with bgmMap := bgmUpdateAt id (fun b => (b.setMasterVolume 0).play) m.bgmMap }
        (true, { m with currentBgmId := id })

/-- `BGMManager::updateFade` on one fade state: advance the elapsed time,
linearly interpolate the volume over the fade duration, disarm at
progress ≥ 1, and on a completed fade-out stop and release the song. -/
def BGMManager.updateFadeCore (master deltaTime : ℚ) (fs : FadeState)
    (bgmMap : List (String × MultiTrackSequencer)) :
    FadeState × List (String × MultiTrackSequencer) :=
  if ¬ fs.isFading ∨ fs.bgm.isNone then (fs, bgmMap)
  else
    let id := fs.bgm.getD ""
    let elapsed := fs.elapsedTime + deltaTime
    let progress := sdlClamp (elapsed / fs.fadeDuration) 0 1
    let startVolume := if fs.targetVolume = 0 then master else 0
    let current := startVolume + (fs.targetVolume - startVolume) * progress
    let bgmMap2 :=
      bgmUpdateAt id (MultiTrackSequencer.setMasterVolume current) bgmMap
    if progress ≥ 1 then
      if fs.targetVolume = 0 then
        ({ fs with elapsedTime := elapsed, currentVolume := current,
                   isFading := false, bgm := none },
          bgmUpdateAt id MultiTrackSequencer.stop bgmMap2)
      else
        ({ fs with elapsedTime := elapsed, currentVolume := current,
                   isFading := false }, bgmMap2)
    else
      ({ fs with elapsedTime := elapsed, currentVolume := current }, bgmMap2)

/-- `BGMManager::update`, with the measured delta time passed in: update
the fade-in, then the fade-out, then every registered BGM. -/
def BGMManager.update (deltaTime : ℚ) (m : BGMManager) : BGMManager :=
  let r1 := BGMManager.updateFadeCore m.masterVolume deltaTime m.fadeIn m.bgmMap
  let m := { m with fadeIn := r1.1, bgmMap := r1.2 }
  let r2 := BGMManager.updateFadeCore m.masterVolume deltaTime m.fadeOut m.bgmMap
  let m := { m with fadeOut := r2.1, bgmMap := r2.2 }
  { m with bgmMap := m.bgmMap.map (fun p => (p.1, p.2.update)) }

def BGMManager.runTicks (ds : List ℚ) (m : BGMManager) : BGMManager :=
  ds.foldl (fun m d => BGMManager.update d m) m


/-- Invariant for C3 with looping enabled and a finite count N ≥ 0: while
playing, the completed-traversal count agrees with `current_loop_` and has
not exceeded N; once stopped (by the loop budget), exactly N+1 traversals
completed. -/
def SeqInvA (notes : List NoteData) (N : ℤ) (s : Sequencer) : Prop :=
  s.sequence = notes ∧ s.loopEnabled = true ∧ s.loopCount = N ∧
  ((s.isPlaying = true ∧ s.currentNoteIndex < notes.length ∧
      s.currentLoop = (s.ghostTraversals : ℤ) ∧ (s.ghostTraversals : ℤ) ≤ N)
    ∨ (s.isPlaying = false ∧ (s.ghostTraversals : ℤ) = N + 1))

/-- Invariant for C3 with looping disabled: playback stops at the first
end of list, after exactly one traversal. -/
def SeqInvB (notes : List NoteData) (s : Sequencer) : Prop :=
  s.sequence = notes ∧ s.loopEnabled = false ∧
  ((s.isPlaying = true ∧ s.currentNoteIndex < notes.length ∧
      s.ghostTraversals = 0)
    ∨ (s.isPlaying = false ∧ s.ghostTraversals = 1))

/-- Invariant for C3 with infinite looping (negative count): playback
never stops. -/
def SeqInvC (notes : List NoteData) (s : Sequencer) : Prop :=
  s.sequence = notes ∧ s.loopEnabled = true ∧ s.loopCount < 0 ∧
  s.isPlaying = true ∧ s.currentNoteIndex < notes.length


/-- Strengthened invariant for C3's progress argument: while playing, the
number of completed notes equals the number of elapsed ticks `k`, and the
note-relative time is nonnegative. -/
def SeqInvT (notes : List NoteData) (N : ℤ) (k : ℕ) (s : Sequencer) : Prop :=
  s.sequence = notes ∧ s.loopEnabled = true ∧ s.loopCount = N ∧
  ((s.isPlaying = true ∧ s.currentNoteIndex < notes.length ∧
      s.currentLoop = (s.ghostTraversals : ℤ) ∧ (s.ghostTraversals : ℤ) ≤ N ∧
      s.ghostTraversals * notes.length + s.currentNoteIndex = k ∧
      0 ≤ s.sequenceTime)
    ∨ (s.isPlaying = false ∧ (s.ghostTraversals : ℤ) = N + 1))


/-- Concrete one-note list used by the C3 witness. -/
def c3WitnessNotes : List NoteData := [⟨0, 4, 1/2, false, WaveType.Sine, 1⟩]

/-- The C3 witness's configured-and-started sequencer. -/
def c3WitnessStart (loopEnabled : Bool) (count : ℤ) : Sequencer :=
  ((((Sequencer.mkSeq (SimpleSynthesizer.mkSynth 44100 true) 120).setSequence
      c3WitnessNotes).setLoop loopEnabled count).play).1


/-- Mid-crossfade invariant: both fades armed with accumulated elapsed
time `t` of a 2-second crossfade from `oldId` to `newId`, the two songs'
master volumes tracking the linear interpolation. -/
def CrossfadeMid (master : ℚ) (oldId newId : String) (t : ℚ)
    (m : BGMManager) : Prop :=
  m.masterVolume = master ∧
  m.currentBgmId = newId ∧
  m.fadeIn = { bgm := some newId, bgmId := newId,
               currentVolume := master * (t / 2), targetVolume := master,
               fadeDuration := 2, elapsedTime := t, isFading := true } ∧
  m.fadeOut = { bgm := some oldId, bgmId := oldId,
                currentVolume := master * (1 - t / 2), targetVolume := 0,
                fadeDuration := 2, elapsedTime := t, isFading := true } ∧
  (∃ os, m.bgmMap.lookup oldId = some os ∧
    os.masterVolume = master * (1 - t / 2)) ∧
  (∃ ns, m.bgmMap.lookup newId = some ns ∧
    ns.masterVolume = master * (t / 2))

/-- Completed-crossfade invariant: both fades disarmed, the fade-out's
song pointer released, the old song stopped at volume 0 and the new song
at the full master volume. -/
def CrossfadeDone (master : ℚ) (oldId newId : String)
    (m : BGMManager) : Prop :=
  m.masterVolume = master ∧
  m.currentBgmId = newId ∧
  m.fadeIn.isFading = false ∧
  m.fadeOut.isFading = false ∧
  m.fadeOut.bgm = none ∧
  (∃ os, m.bgmMap.lookup oldId = some os ∧
    os.masterVolume = 0 ∧ os.isPlaying = false) ∧
  (∃ ns, m.bgmMap.lookup newId = some ns ∧ ns.masterVolume = master)

/-- A silent two-track-free song used by the C1 witness registry. -/
def c1WitnessSong : MultiTrackSequencer :=
  { trackCount := 0, bpm := 120, masterVolume := 1, isPaused := false,
    mixerVolume := 1, seqs := [] }

/-- C1 witness manager: two registered songs, song "a" currently playing. -/
def c1WitnessMgr : BGMManager :=
  { masterVolume := 1, currentBgmId := "a",
    bgmMap := [("a", c1WitnessSong), ("b", c1WitnessSong)],
    fadeIn := FadeState.initFade, fadeOut := FadeState.initFade }

end MySound

namespace MySound

/-! ### Claim C2 -/

/-- C2, counterexample.  The claim says noteOff from ANY phase (including
Idle) enters Release.  On the embedded code, noteOff on a freshly
constructed (Idle) envelope leaves it in Idle, not Release. -/
theorem c2_noteOff_idle_counterexample :
    ¬ (Envelope.init.noteOff.state = EnvState.Release) := by
  decide

/-- C2, amended: from every phase other than Idle, noteOff enters Release
recording the level held at that moment (noteOff from Idle is a no-op);
in Release with releaseTime > 0, each `process sampleRate` call computes
`lvl = releaseLevel * (1 - dt/releaseTime)` with `dt = 1/sampleRate`:
if `lvl > 0` the envelope stays in Release holding `lvl`, and once
`lvl ≤ 0` the envelope enters Idle with level 0 (returning 0). -/
theorem c2_noteOff_release (e : Envelope) (sr : ℕ)
    (hidle : e.state ≠ EnvState.Idle) :
    (e.noteOff.state = EnvState.Release ∧
     e.noteOff.releaseLevel = e.currentLevel) ∧
    (∀ e2 : Envelope, e2.state = EnvState.Release → e2.releaseTime > 0 →
      let lvl := e2.releaseLevel * (1 - (1 / (sr : ℚ)) / e2.releaseTime)
      (lvl > 0 →
        (e2.process sr).1 = lvl ∧
        (e2.process sr).2.state = EnvState.Release ∧
        (e2.process sr).2.currentLevel = lvl ∧
        (e2.process sr).2.releaseLevel = lvl) ∧
      (lvl ≤ 0 →
        (e2.process sr).1 = 0 ∧
        (e2.process sr).2.state = EnvState.Idle ∧
        (e2.process sr).2.currentLevel = 0)) := by
  constructor
  · rw [Envelope.noteOff, if_pos hidle]
    exact ⟨rfl, rfl⟩
  · intro e2 hst hrt lvl
    have hproc : e2.process sr =
        (if lvl ≤ 0 then
          (0, { e2 with currentLevel := 0, releaseLevel := lvl, state := .Idle })
        else (lvl, { e2 with currentLevel := lvl, releaseLevel := lvl })) := by
      unfold Envelope.process
      rw [hst]
      simp only [if_pos hrt]
    constructor
    · intro hpos
      rw [hproc, if_neg (not_le.mpr hpos)]
      exact ⟨rfl, hst, rfl, rfl⟩
    · intro hle
      rw [hproc, if_pos hle]
      exact ⟨rfl, rfl, rfl⟩

/-! ### Claim C5: envelope output range and convergence to sustain -/

theorem envInv_init : EnvInv Envelope.init := by
  unfold EnvInv
  refine ⟨?_, ?_, ?_, ?_, ?_⟩ <;> simp [Envelope.init] <;> norm_num

/-- One `process` call preserves the invariant and returns a value in
`[0,1]`. -/
theorem process_preserves_inv {e : Envelope} {sr : ℕ}
    (hinv : EnvInv e) (hsr : 1 ≤ sr) :
    EnvInv (e.process sr).2 ∧ 0 ≤ (e.process sr).1 ∧ (e.process sr).1 ≤ 1 := by
  obtain ⟨hc0, hc1, hs0, hs1, hrel⟩ := hinv
  have hsrq : (1 : ℚ) ≤ (sr : ℚ) := by exact_mod_cast hsr
  have hdt : 0 < 1 / (sr : ℚ) := by positivity
  have hdt1 : 1 / (sr : ℚ) ≤ 1 := by
    rw [div_le_one (by linarith)]; exact hsrq
  rcases he : e.state with _ | _ | _ | _ | _ <;>
    simp only [Envelope.process, he]
  · exact ⟨⟨hc0, hc1, hs0, hs1, fun h => hrel (he ▸ h)⟩, le_refl _, by norm_num⟩
  · -- Attack
    by_cases ha : e.attackTime > 0
    · simp only [if_pos ha]
      by_cases hcap : e.currentLevel + (1 / (sr : ℚ)) / e.attackTime ≥ 1
      · simp only [if_pos hcap]
        refine ⟨⟨by norm_num, by norm_num, hs0, hs1, ?_⟩, by norm_num, by norm_num⟩
        intro h; simp at h
      · simp only [if_neg hcap]
        have hstep : 0 < (1 / (sr : ℚ)) / e.attackTime := by positivity
        push_neg at hcap
        refine ⟨⟨by linarith, by linarith, hs0, hs1, ?_⟩, by linarith, by linarith⟩
        intro h; simp at h
    · simp only [if_neg ha]
      refine ⟨⟨by norm_num, by norm_num, hs0, hs1, ?_⟩, by norm_num, by norm_num⟩
      intro h; simp at h
  · -- Decay
    by_cases hd : e.decayTime > 0
    · simp only [if_pos hd]
      have hstep : 0 ≤ (1 / (sr : ℚ)) * (1 - e.sustainLevel) / e.decayTime := by
        have : 0 ≤ 1 - e.sustainLevel := by linarith
        positivity
      by_cases hfl : e.currentLevel - (1 / (sr : ℚ)) * (1 - e.sustainLevel) / e.decayTime
          ≤ e.sustainLevel
      · simp only [if_pos hfl]
        refine ⟨⟨hs0, hs1, hs0, hs1, ?_⟩, hs0, hs1⟩
        intro h; simp at h
      · simp only [if_neg hfl]
        push_neg at hfl
        refine ⟨⟨by linarith, by linarith, hs0, hs1, ?_⟩, by linarith, by linarith⟩
        intro h; simp at h
    · simp only [if_neg hd]
      refine ⟨⟨hs0, hs1, hs0, hs1, ?_⟩, hs0, hs1⟩
      intro h; simp at h
  · -- Sustain
    exact ⟨⟨hc0, hc1, hs0, hs1, fun h => hrel (he ▸ h)⟩, hs0, hs1⟩
  · -- Release
    obtain ⟨hr0, hr1⟩ := hrel he
    by_cases hrt : e.releaseTime > 0
    · simp only [if_pos hrt]
      have hfac : 1 - (1 / (sr : ℚ)) / e.releaseTime < 1 := by
        have : 0 < (1 / (sr : ℚ)) / e.releaseTime := by positivity
        linarith
      have hup : e.releaseLevel * (1 - (1 / (sr : ℚ)) / e.releaseTime)
          ≤ e.releaseLevel := by nlinarith
      by_cases hneg : e.releaseLevel * (1 - (1 / (sr : ℚ)) / e.releaseTime) ≤ 0
      · simp only [if_pos hneg]
        refine ⟨⟨le_refl _, by norm_num, hs0, hs1, ?_⟩, le_refl _, by norm_num⟩
        intro h; simp at h
      · simp only [if_neg hneg]
        push_neg at hneg
        refine ⟨⟨by linarith, by linarith, hs0, hs1, ?_⟩, by linarith, by linarith⟩
        intro h
        exact ⟨by linarith, by linarith⟩
    · simp only [if_neg hrt]
      refine ⟨⟨le_refl _, by norm_num, hs0, hs1, ?_⟩, le_refl _, by norm_num⟩
      intro h; simp at h

theorem op_preserves_inv {e : Envelope} {op : EnvOp}
    (hinv : EnvInv e) (hok : op.ok) : EnvInv (op.apply e) := by
  obtain ⟨hc0, hc1, hs0, hs1, hrel⟩ := hinv
  cases op with
  | noteOn =>
      refine ⟨?_, ?_, hs0, hs1, ?_⟩ <;>
        simp [EnvOp.apply, Envelope.noteOn] <;> norm_num
  | noteOff =>
      simp only [EnvOp.apply, Envelope.noteOff]
      split
      · exact ⟨hc0, hc1, hs0, hs1, fun _ => ⟨hc0, hc1⟩⟩
      · exact ⟨hc0, hc1, hs0, hs1, hrel⟩
  | process sr => exact (process_preserves_inv ⟨hc0, hc1, hs0, hs1, hrel⟩ hok).1
  | setAttackTime t => exact ⟨hc0, hc1, hs0, hs1, hrel⟩
  | setDecayTime t => exact ⟨hc0, hc1, hs0, hs1, hrel⟩
  | setSustainLevel lvl =>
      exact ⟨hc0, hc1, (sdlClamp_mem (by norm_num)).1,
        (sdlClamp_mem (by norm_num)).2, hrel⟩
  | setReleaseTime t => exact ⟨hc0, hc1, hs0, hs1, hrel⟩
  | setADSR a d s r =>
      exact ⟨hc0, hc1, (sdlClamp_mem (by norm_num)).1,
        (sdlClamp_mem (by norm_num)).2, hrel⟩

theorem runOps_inv (ops : List EnvOp) (hok : ∀ op ∈ ops, op.ok) :
    EnvInv (Envelope.runOps ops Envelope.init) := by
  suffices h : ∀ e, EnvInv e → EnvInv (Envelope.runOps ops e) from
    h _ envInv_init
  induction ops with
  | nil => intro e he; exact he
  | cons op rest ih =>
      intro e he
      exact ih (fun o ho => hok o (List.mem_cons_of_mem _ ho)) _
        (op_preserves_inv he (hok op (List.mem_cons_self _ _)))

theorem processIter_add (sr : ℕ) (m n : ℕ) (e : Envelope) :
    Envelope.processIter sr (m + n) e =
      Envelope.processIter sr n (Envelope.processIter sr m e) := by
  induction m generalizing e with
  | zero => simp [Envelope.processIter]
  | succ m ih =>
      have hstep : Envelope.processIter sr (m + 1 + n) e
          = Envelope.processIter sr (m + n) ((e.process sr).2) := by
        rw [show m + 1 + n = (m + n) + 1 from by omega]
        rfl
      rw [hstep, ih]
      rfl

theorem processIter_succ_back (sr : ℕ) (n : ℕ) (e : Envelope) :
    Envelope.processIter sr (n + 1) e =
      ((Envelope.processIter sr n e).process sr).2 := by
  rw [processIter_add sr n 1 e]
  rfl

/-- Closed form of the linear Attack ramp while the level stays below 1. -/
theorem attack_ramp (sr : ℕ) :
    ∀ (i : ℕ) (e : Envelope), e.state = EnvState.Attack → 0 < e.attackTime →
      e.currentLevel + (i : ℚ) * (1 / (sr : ℚ)) / e.attackTime < 1 →
      Envelope.processIter sr i e =
        { e with currentLevel :=
            e.currentLevel + (i : ℚ) * (1 / (sr : ℚ)) / e.attackTime } := by
  intro i
  induction i with
  | zero =>
      intro e he ha _
      show e = _
      cases e
      simp
  | succ i ih =>
      intro e he ha hlt
      have hstep0 : (0 : ℚ) ≤ (i : ℚ) * (1 / (sr : ℚ)) / e.attackTime := by positivity
      have hsplit : ((i : ℚ) + 1) * (1 / (sr : ℚ)) / e.attackTime
          = (i : ℚ) * (1 / (sr : ℚ)) / e.attackTime
            + (1 / (sr : ℚ)) / e.attackTime := by ring
      push_cast at hlt
      have hlt1 : e.currentLevel + (1 / (sr : ℚ)) / e.attackTime < 1 := by
        linarith [hsplit]
      have hproc : (e.process sr).2 =
          { e with currentLevel := e.currentLevel + (1 / (sr : ℚ)) / e.attackTime } := by
        unfold Envelope.process
        rw [he]
        simp only [if_pos ha, ge_iff_le, if_neg (not_le.mpr hlt1)]
      show Envelope.processIter sr i ((e.process sr).2) = _
      rw [hproc,
        ih { e with currentLevel := e.currentLevel + (1 / (sr : ℚ)) / e.attackTime }
          he ha (by push_cast; linarith [hsplit])]
      congr 1
      push_cast
      linarith [hsplit]

/-- Starting an attack from level 0, within `attackTime * sampleRate + 1`
process calls the envelope reaches level 1 and enters Decay. -/
theorem attack_reaches_decay (sr : ℕ) (hsr : 1 ≤ sr) (e : Envelope)
    (he : e.state = EnvState.Attack) (hcl : e.currentLevel = 0)
    (ha : 0 ≤ e.attackTime) :
    ∃ k : ℕ, 1 ≤ k ∧ (k : ℚ) ≤ e.attackTime * (sr : ℚ) + 1 ∧
      Envelope.processIter sr k e = { e with currentLevel := 1, state := .Decay } := by
  have hsrq : (0 : ℚ) < (sr : ℚ) := by exact_mod_cast hsr
  rcases eq_or_lt_of_le ha with hz | hpos
  · refine ⟨1, le_refl _, by rw [← hz]; push_cast; nlinarith, ?_⟩
    have hna : ¬ e.attackTime > 0 := by rw [← hz]; exact lt_irrefl 0
    show (e.process sr).2 = _
    unfold Envelope.process
    rw [he]
    simp only [if_neg hna]
  · set k := ⌈e.attackTime * (sr : ℚ)⌉₊ with hk
    have hkpos : 1 ≤ k := Nat.ceil_pos.mpr (by positivity)
    have hk1 : ((k - 1 : ℕ) : ℚ) < e.attackTime * (sr : ℚ) := by
      exact_mod_cast Nat.lt_ceil.mp (Nat.sub_lt hkpos Nat.one_pos)
    have hkge : e.attackTime * (sr : ℚ) ≤ (k : ℚ) := Nat.le_ceil _
    have hkle : (k : ℚ) ≤ e.attackTime * (sr : ℚ) + 1 :=
      le_of_lt (Nat.ceil_lt_add_one (by positivity))
    have hramp := attack_ramp sr (k - 1) e he hpos (by
      rw [hcl, zero_add]
      rw [show ((k - 1 : ℕ) : ℚ) * (1 / (sr : ℚ)) / e.attackTime
          = ((k - 1 : ℕ) : ℚ) / (e.attackTime * (sr : ℚ)) from by ring,
        div_lt_one (by positivity)]
      exact hk1)
    refine ⟨k, hkpos, hkle, ?_⟩
    have hkdecomp : k = (k - 1) + 1 := (Nat.succ_pred_eq_of_pos hkpos).symm
    have hcast : ((k - 1 : ℕ) : ℚ) = (k : ℚ) - 1 := by
      push_cast [Nat.cast_sub hkpos]
      ring
    have hcap : (1 : ℚ) ≤ e.currentLevel + ((k - 1 : ℕ) : ℚ) * (1 / (sr : ℚ)) / e.attackTime
        + 1 / (sr : ℚ) / e.attackTime := by
      rw [hcl, zero_add,
        show ((k - 1 : ℕ) : ℚ) * (1 / (sr : ℚ)) / e.attackTime + 1 / (sr : ℚ) / e.attackTime
          = (((k - 1 : ℕ) : ℚ) + 1) / (e.attackTime * (sr : ℚ)) from by ring,
        le_div_iff₀ (by positivity), hcast]
      linarith
    rw [hkdecomp, processIter_succ_back, hramp]
    unfold Envelope.process
    simp only [he, ge_iff_le, if_pos hpos, if_pos hcap]

/-- Closed form of the linear Decay ramp while above the sustain level. -/
theorem decay_ramp (sr : ℕ) :
    ∀ (i : ℕ) (e : Envelope), e.state = EnvState.Decay → 0 < e.decayTime →
      e.sustainLevel ≤ 1 →
      e.sustainLevel <
        e.currentLevel - (i : ℚ) * ((1 / (sr : ℚ)) * (1 - e.sustainLevel) / e.decayTime) →
      Envelope.processIter sr i e =
        { e with currentLevel :=
            e.currentLevel
              - (i : ℚ) * ((1 / (sr : ℚ)) * (1 - e.sustainLevel) / e.decayTime) } := by
  intro i
  induction i with
  | zero =>
      intro e he hd _ _
      show e = _
      cases e
      simp
  | succ i ih =>
      intro e he hd hs1 hgt
      have hsplit : ((i : ℚ) + 1) * ((1 / (sr : ℚ)) * (1 - e.sustainLevel) / e.decayTime)
          = (i : ℚ) * ((1 / (sr : ℚ)) * (1 - e.sustainLevel) / e.decayTime)
            + (1 / (sr : ℚ)) * (1 - e.sustainLevel) / e.decayTime := by ring
      push_cast at hgt
      have hXnn : (0 : ℚ) ≤ (i : ℚ) * ((1 / (sr : ℚ)) * (1 - e.sustainLevel) / e.decayTime) := by
        have h1s : (0 : ℚ) ≤ 1 - e.sustainLevel := by linarith
        positivity
      have hgt1 : e.sustainLevel <
          e.currentLevel - (1 / (sr : ℚ)) * (1 - e.sustainLevel) / e.decayTime := by
        linarith [hsplit]
      have hproc : (e.process sr).2 =
          { e with currentLevel :=
              e.currentLevel - (1 / (sr : ℚ)) * (1 - e.sustainLevel) / e.decayTime } := by
        unfold Envelope.process
        rw [he]
        simp only [if_pos hd, if_neg (not_le.mpr hgt1)]
      show Envelope.processIter sr i ((e.process sr).2) = _
      rw [hproc,
        ih { e with currentLevel :=
              e.currentLevel - (1 / (sr : ℚ)) * (1 - e.sustainLevel) / e.decayTime }
          he hd hs1 (by push_cast; linarith [hsplit])]
      congr 1
      push_cast
      linarith [hsplit]

/-- Starting a decay from level 1, within `decayTime * sampleRate + 1`
process calls the envelope reaches the sustain level and enters Sustain. -/
theorem decay_reaches_sustain (sr : ℕ) (hsr : 1 ≤ sr) (e : Envelope)
    (he : e.state = EnvState.Decay) (hcl : e.currentLevel = 1)
    (hd : 0 ≤ e.decayTime) (hs0 : 0 ≤ e.sustainLevel) (hs1 : e.sustainLevel ≤ 1) :
    ∃ j : ℕ, 1 ≤ j ∧ (j : ℚ) ≤ e.decayTime * (sr : ℚ) + 1 ∧
      Envelope.processIter sr j e =
        { e with currentLevel := e.sustainLevel, state := .Sustain } := by
  have hsrq : (0 : ℚ) < (sr : ℚ) := by exact_mod_cast hsr
  rcases eq_or_lt_of_le hd with hz | hdpos
  · refine ⟨1, le_refl _, by rw [← hz]; push_cast; nlinarith, ?_⟩
    have hnd : ¬ e.decayTime > 0 := by rw [← hz]; exact lt_irrefl 0
    show (e.process sr).2 = _
    unfold Envelope.process
    rw [he]
    simp only [if_neg hnd]
  · rcases eq_or_lt_of_le hs1 with hsone | hslt
    · -- sustain level is exactly 1: the first decay step clamps immediately
      refine ⟨1, le_refl _, by push_cast; nlinarith, ?_⟩
      have hclamp : e.currentLevel - 1 / (sr : ℚ) * (1 - e.sustainLevel) / e.decayTime
          ≤ e.sustainLevel := by
        rw [hcl, hsone]
        simp
      show (e.process sr).2 = _
      unfold Envelope.process
      rw [he]
      simp only [if_pos hdpos, if_pos hclamp]
    · set j := ⌈e.decayTime * (sr : ℚ)⌉₊ with hj
      have hjpos : 1 ≤ j := Nat.ceil_pos.mpr (by positivity)
      have hj1 : ((j - 1 : ℕ) : ℚ) < e.decayTime * (sr : ℚ) := by
        exact_mod_cast Nat.lt_ceil.mp (Nat.sub_lt hjpos Nat.one_pos)
      have hjge : e.decayTime * (sr : ℚ) ≤ (j : ℚ) := Nat.le_ceil _
      have hjle : (j : ℚ) ≤ e.decayTime * (sr : ℚ) + 1 :=
        le_of_lt (Nat.ceil_lt_add_one (by positivity))
      have h1s : (0 : ℚ) < 1 - e.sustainLevel := by linarith
      have hramp := decay_ramp sr (j - 1) e he hdpos hs1 (by
        rw [hcl]
        have hlt : ((j - 1 : ℕ) : ℚ) * (1 / (sr : ℚ) * (1 - e.sustainLevel) / e.decayTime)
            < 1 - e.sustainLevel := by
          rw [show ((j - 1 : ℕ) : ℚ) * (1 / (sr : ℚ) * (1 - e.sustainLevel) / e.decayTime)
              = ((j - 1 : ℕ) : ℚ) * (1 - e.sustainLevel) / (e.decayTime * (sr : ℚ)) from by
                ring,
            div_lt_iff₀ (by positivity)]
          calc ((j - 1 : ℕ) : ℚ) * (1 - e.sustainLevel)
              < e.decayTime * (sr : ℚ) * (1 - e.sustainLevel) := by nlinarith
            _ = (1 - e.sustainLevel) * (e.decayTime * (sr : ℚ)) := by ring
        linarith)
      refine ⟨j, hjpos, hjle, ?_⟩
      have hjdecomp : j = (j - 1) + 1 := (Nat.succ_pred_eq_of_pos hjpos).symm
      have hcast : ((j - 1 : ℕ) : ℚ) = (j : ℚ) - 1 := by
        push_cast [Nat.cast_sub hjpos]
        ring
      have hfloor : e.currentLevel
          - ((j - 1 : ℕ) : ℚ) * (1 / (sr : ℚ) * (1 - e.sustainLevel) / e.decayTime)
          - 1 / (sr : ℚ) * (1 - e.sustainLevel) / e.decayTime ≤ e.sustainLevel := by
        rw [hcl]
        have hge : 1 - e.sustainLevel ≤
            (((j - 1 : ℕ) : ℚ) + 1) * (1 / (sr : ℚ) * (1 - e.sustainLevel) / e.decayTime) := by
          rw [show (((j - 1 : ℕ) : ℚ) + 1) * (1 / (sr : ℚ) * (1 - e.sustainLevel) / e.decayTime)
              = (((j - 1 : ℕ) : ℚ) + 1) * (1 - e.sustainLevel) / (e.decayTime * (sr : ℚ)) from by
                ring,
            le_div_iff₀ (by positivity), hcast]
          nlinarith
        nlinarith [hge]
      rw [hjdecomp, processIter_succ_back, hramp]
      unfold Envelope.process
      simp only [he, if_pos hdpos, if_pos hfloor]

/-- In the Sustain phase, `process` returns the sustain level and leaves the
envelope unchanged; iterating keeps it there. -/
theorem sustain_fixed (sr : ℕ) (e : Envelope) (he : e.state = EnvState.Sustain) :
    (e.process sr = (e.sustainLevel, e)) ∧
    (∀ n : ℕ, Envelope.processIter sr n e = e) := by
  have hp : e.process sr = (e.sustainLevel, e) := by
    unfold Envelope.process
    rw [he]
  refine ⟨hp, ?_⟩
  intro n
  induction n with
  | zero => rfl
  | succ n ih =>
      show Envelope.processIter sr n ((e.process sr).2) = e
      rw [hp]
      exact ih

/-- In the Sustain phase, however many further process calls happen, the
returned value is the sustain level. -/
theorem sustain_out (sr : ℕ) (n : ℕ) (e : Envelope)
    (he : e.state = EnvState.Sustain) :
    ((Envelope.processIter sr n e).process sr).1 = e.sustainLevel := by
  obtain ⟨hp, hfix⟩ := sustain_fixed sr e he
  rw [hfix, hp]

/-- C5, counterexample to the claim as stated.  Sample rate 1 Hz, attack
0.5 s, decay 0.5 s, sustain 0.3: one process call accounts for exactly
1 s = attackTime + decayTime of processing, yet the value returned by that
call is 1 (the envelope has just entered Decay), not the sustain level. -/
theorem c5_sustain_boundary_counterexample :
    ((1 : ℚ) * (1 / ((1 : ℕ) : ℚ)) ≥ 1/2 + 1/2) ∧
    (((Envelope.init.setADSR (1/2) (1/2) (3/10) (1/5)).noteOn.process 1).1 = 1) ∧
    ¬ (((Envelope.init.setADSR (1/2) (1/2) (3/10) (1/5)).noteOn.process 1).1
        = (Envelope.init.setADSR (1/2) (1/2) (3/10) (1/5)).noteOn.sustainLevel) := by
  refine ⟨by norm_num, ?_, ?_⟩ <;>
    norm_num [Envelope.process, Envelope.noteOn, Envelope.setADSR, Envelope.init,
      sdlClamp]

/-- C5, amended: for every reachable envelope state (any sequence of
noteOn/noteOff/process/setter calls from the initial envelope, all process
calls with positive sample rate), `process` returns a value in [0,1], and
returns 0 whenever the envelope is Idle; and after a `noteOn` with
nonnegative attack and decay times, once the number of held process calls
covers attackTime + decayTime seconds PLUS TWO EXTRA SAMPLES, the returned
value equals the (clamped) sustain level. -/
theorem c5_output_bounds_and_sustain
    (ops : List EnvOp) (hops : ∀ op ∈ ops, op.ok)
    (sr : ℕ) (hsr : 1 ≤ sr)
    (a d s r : ℚ) (ha : 0 ≤ a) (hd : 0 ≤ d)
    (n : ℕ) (hn : (a + d) * (sr : ℚ) + 2 ≤ (n : ℚ)) :
    (0 ≤ ((Envelope.runOps ops Envelope.init).process sr).1 ∧
      ((Envelope.runOps ops Envelope.init).process sr).1 ≤ 1) ∧
    ((Envelope.runOps ops Envelope.init).state = EnvState.Idle →
      ((Envelope.runOps ops Envelope.init).process sr).1 = 0) ∧
    ((Envelope.processIter sr n ((Envelope.init.setADSR a d s r).noteOn)).process sr).1
      = sdlClamp s 0 1 := by
  refine ⟨?_, ?_, ?_⟩
  · exact (process_preserves_inv (runOps_inv ops hops) hsr).2
  · intro hidle
    unfold Envelope.process
    rw [hidle]
  · obtain ⟨k, hk1, hkle, hkstate⟩ :=
      attack_reaches_decay sr hsr ((Envelope.init.setADSR a d s r).noteOn) rfl rfl ha
    have hkle2 : (k : ℚ) ≤ a * (sr : ℚ) + 1 := hkle
    obtain ⟨j, hj1, hjle, hjstate⟩ :=
      decay_reaches_sustain sr hsr
        { (Envelope.init.setADSR a d s r).noteOn with currentLevel := 1, state := .Decay }
        rfl rfl hd (sdlClamp_mem (by norm_num)).1 (sdlClamp_mem (by norm_num)).2
    have hjle2 : (j : ℚ) ≤ d * (sr : ℚ) + 1 := hjle
    have hsum : k + j ≤ n := by
      have hexp : (a + d) * (sr : ℚ) = a * (sr : ℚ) + d * (sr : ℚ) := by ring
      have hq : ((k + j : ℕ) : ℚ) ≤ (n : ℚ) := by push_cast; linarith
      exact_mod_cast hq
    have hdecomp : n = (k + j) + (n - (k + j)) := by omega
    rw [hdecomp, processIter_add, processIter_add, hkstate, hjstate]
    exact sustain_out sr _ _ rfl

/-- C5 witness: the amended theorem at `ops = []`, sample rate 1, attack 0,
decay 0, sustain 1/2, release 0, and 2 process calls. -/
theorem c5_output_bounds_and_sustain_witness :
    (0 ≤ ((Envelope.runOps [] Envelope.init).process 1).1 ∧
      ((Envelope.runOps [] Envelope.init).process 1).1 ≤ 1) ∧
    ((Envelope.runOps [] Envelope.init).state = EnvState.Idle →
      ((Envelope.runOps [] Envelope.init).process 1).1 = 0) ∧
    ((Envelope.processIter 1 2 ((Envelope.init.setADSR 0 0 (1/2) 0).noteOn)).process 1).1
      = sdlClamp (1/2) 0 1 :=
  c5_output_bounds_and_sustain [] (fun op h => absurd h (List.not_mem_nil op))
    1 (le_refl 1) 0 0 (1/2) 0 (le_refl 0) (le_refl 0) 2 (by norm_num)

/-- C2 witness: the amended theorem applied to a concrete envelope in the
Sustain phase at sample rate 44100. -/
theorem c2_noteOff_release_witness :
    (envSustainSample.noteOff.state = EnvState.Release ∧
     envSustainSample.noteOff.releaseLevel = envSustainSample.currentLevel) ∧
    (∀ e2 : Envelope, e2.state = EnvState.Release → e2.releaseTime > 0 →
      let lvl := e2.releaseLevel * (1 - (1 / ((44100 : ℕ) : ℚ)) / e2.releaseTime)
      (lvl > 0 →
        (e2.process 44100).1 = lvl ∧
        (e2.process 44100).2.state = EnvState.Release ∧
        (e2.process 44100).2.currentLevel = lvl ∧
        (e2.process 44100).2.releaseLevel = lvl) ∧
      (lvl ≤ 0 →
        (e2.process 44100).1 = 0 ∧
        (e2.process 44100).2.state = EnvState.Idle ∧
        (e2.process 44100).2.currentLevel = 0)) :=
  c2_noteOff_release envSustainSample 44100 (by decide)


/-! ### Claim C4: purity and boundedness of Oscillator::generate -/

/-- C4: for every wave type other than Noise, `generate` leaves the
oscillator state (the LCG noise state) unchanged, returns a value in
[-1,1] for phases in [0,1], and two calls with equal phase and equal wave
type return equal outputs (whatever the noise states); Square returns +1
below phase 0.5 and -1 otherwise, Sawtooth returns 2*phase-1, and an
unrecognized wave code returns 0.  The hypothesis on `sinf` is the
documented range of the external `SDL_sinf`. -/
theorem c4_generate_pure_bounded (sinf : ℚ → ℚ)
    (hs : ∀ x : ℚ, -1 ≤ sinf x ∧ sinf x ≤ 1)
    (wave : ℤ) (hw : wave ≠ 3) (phase : ℚ)
    (hp0 : 0 ≤ phase) (hp1 : phase ≤ 1) (ns ns2 : ℕ) :
    ((Oscillator.generate sinf wave phase ns).2 = ns) ∧
    (-1 ≤ (Oscillator.generate sinf wave phase ns).1 ∧
      (Oscillator.generate sinf wave phase ns).1 ≤ 1) ∧
    ((Oscillator.generate sinf wave phase ns).1
      = (Oscillator.generate sinf wave phase ns2).1) ∧
    (wave = 1 → (Oscillator.generate sinf wave phase ns).1
      = (if phase < 1/2 then 1 else -1)) ∧
    (wave = 2 → (Oscillator.generate sinf wave phase ns).1 = 2 * phase - 1) ∧
    (¬ (wave = 0 ∨ wave = 1 ∨ wave = 2 ∨ wave = 3) →
      (Oscillator.generate sinf wave phase ns).1 = 0) := by
  unfold Oscillator.generate
  by_cases h0 : wave = 0
  · simp only [if_pos h0]
    exact ⟨by trivial, ⟨(hs _).1, (hs _).2⟩, by trivial,
      fun h => absurd (h0.symm.trans h) (by norm_num),
      fun h => absurd (h0.symm.trans h) (by norm_num),
      fun h => absurd (Or.inl h0) h⟩
  · by_cases h1 : wave = 1
    · simp only [if_neg h0, if_pos h1]
      refine ⟨by trivial, ?_, by trivial, fun _ => by trivial,
        fun h => absurd (h1.symm.trans h) (by norm_num),
        fun h => absurd (Or.inr (Or.inl h1)) h⟩
      split_ifs <;> norm_num
    · by_cases h2 : wave = 2
      · simp only [if_neg h0, if_neg h1, if_pos h2]
        exact ⟨by trivial, ⟨by linarith, by linarith⟩, by trivial,
          fun h => absurd (h2.symm.trans h) (by norm_num),
          fun _ => by trivial,
          fun h => absurd (Or.inr (Or.inr (Or.inl h2))) h⟩
      · simp only [if_neg h0, if_neg h1, if_neg h2, if_neg hw]
        exact ⟨by trivial, by norm_num, by trivial,
          fun h => absurd h h1,
          fun h => absurd h h2,
          fun _ => by trivial⟩

/-- C4 witness: the theorem applied at the Square wave (code 1), phase 0,
with the constant-zero stand-in for `SDL_sinf`. -/
theorem c4_generate_pure_bounded_witness :
    ((Oscillator.generate (fun _ => 0) 1 0 305419896).2 = 305419896) ∧
    (-1 ≤ (Oscillator.generate (fun _ => 0) 1 0 305419896).1 ∧
      (Oscillator.generate (fun _ => 0) 1 0 305419896).1 ≤ 1) ∧
    ((Oscillator.generate (fun _ => 0) 1 0 305419896).1
      = (Oscillator.generate (fun _ => 0) 1 0 7).1) ∧
    ((1 : ℤ) = 1 → (Oscillator.generate (fun _ => 0) 1 0 305419896).1
      = (if (0 : ℚ) < 1/2 then 1 else -1)) ∧
    ((1 : ℤ) = 2 → (Oscillator.generate (fun _ => 0) 1 0 305419896).1 = 2 * 0 - 1) ∧
    (¬ ((1 : ℤ) = 0 ∨ (1 : ℤ) = 1 ∨ (1 : ℤ) = 2 ∨ (1 : ℤ) = 3) →
      (Oscillator.generate (fun _ => 0) 1 0 305419896).1 = 0) :=
  c4_generate_pure_bounded (fun _ => 0) (fun _ => by norm_num) 1 (by norm_num) 0
    (le_refl 0) (by norm_num) 305419896 7


/-! ### Claim C7: out-of-range parameters are silently clamped -/

theorem setFrequency_frequency (f : BiquadFilter) (freq : ℚ) :
    (f.setFrequency freq).frequency
      = sdlClamp freq 10 ((f.sampleRate : ℚ) / 2 - 1) := by
  unfold BiquadFilter.setFrequency
  dsimp only
  split
  · rfl
  · next h => push_neg at h; exact h

theorem setQ_q (f : BiquadFilter) (q : ℚ) :
    (f.setQ q).q = sdlClamp q (1/10000) 1000 := by
  unfold BiquadFilter.setQ
  dsimp only
  split
  · rfl
  · next h => push_neg at h; exact h

theorem setGain_gain (f : BiquadFilter) (gain : ℚ) :
    (f.setGain gain).gain = sdlClamp gain (-40) 40 := by
  unfold BiquadFilter.setGain
  dsimp only
  split
  · rfl
  · next h => push_neg at h; exact h

theorem setDetune_detune (f : BiquadFilter) (detune : ℚ) :
    (f.setDetune detune).detune = sdlClamp detune (-1200) 1200 := by
  unfold BiquadFilter.setDetune
  dsimp only
  split
  · rfl
  · next h => push_neg at h; exact h

/-- C7: every out-of-range setter argument is silently clamped into range
and the call never fails: after `setFrequency` the stored frequency is in
[10, sampleRate/2 - 1] (for any sample rate of at least 22 Hz), after
`setQ` the stored Q is in [0.0001, 1000], after `setGain` the stored gain
is in [-40, 40] dB, after `setDetune` the stored detune is in
[-1200, 1200] cents and is applied as `frequency * 2^(detune/1200)` before
coefficients are derived, and `AudioMixer::setPan` clamps the pan to
[-1, 1] before deriving the equal-power send levels. -/
theorem c7_setters_clamp (f : BiquadFilter) (hsr : 22 ≤ f.sampleRate)
    (freq q gain detune pan : ℚ) (pow2 : ℚ → ℚ) (hpow : pow2 0 = 1) :
    (10 ≤ (f.setFrequency freq).frequency ∧
      (f.setFrequency freq).frequency ≤ (f.sampleRate : ℚ) / 2 - 1) ∧
    (1/10000 ≤ (f.setQ q).q ∧ (f.setQ q).q ≤ 1000) ∧
    (-40 ≤ (f.setGain gain).gain ∧ (f.setGain gain).gain ≤ 40) ∧
    (-1200 ≤ (f.setDetune detune).detune ∧ (f.setDetune detune).detune ≤ 1200) ∧
    (f.getDetunedFrequency pow2 = f.frequency * pow2 (f.detune / 1200)) ∧
    (-1 ≤ AudioMixer.clampedPan pan ∧ AudioMixer.clampedPan pan ≤ 1) := by
  have hsrq : (22 : ℚ) ≤ (f.sampleRate : ℚ) := by exact_mod_cast hsr
  refine ⟨?_, ?_, ?_, ?_, ?_, ?_⟩
  · rw [setFrequency_frequency]
    exact sdlClamp_mem (by linarith)
  · rw [setQ_q]
    exact sdlClamp_mem (by norm_num)
  · rw [setGain_gain]
    exact sdlClamp_mem (by norm_num)
  · rw [setDetune_detune]
    exact sdlClamp_mem (by norm_num)
  · unfold BiquadFilter.getDetunedFrequency
    split
    · next h =>
        rw [h]
        simp [hpow]
    · rfl
  · exact sdlClamp_mem (by norm_num)

/-- C7 witness: the theorem at the default 44100 Hz filter with wildly
out-of-range arguments. -/
theorem c7_setters_clamp_witness :
    (10 ≤ ((BiquadFilter.mkFilter 44100).setFrequency 1000000).frequency ∧
      ((BiquadFilter.mkFilter 44100).setFrequency 1000000).frequency
        ≤ (((BiquadFilter.mkFilter 44100).sampleRate : ℚ)) / 2 - 1) ∧
    (1/10000 ≤ ((BiquadFilter.mkFilter 44100).setQ (-5)).q ∧
      ((BiquadFilter.mkFilter 44100).setQ (-5)).q ≤ 1000) ∧
    (-40 ≤ ((BiquadFilter.mkFilter 44100).setGain 999).gain ∧
      ((BiquadFilter.mkFilter 44100).setGain 999).gain ≤ 40) ∧
    (-1200 ≤ ((BiquadFilter.mkFilter 44100).setDetune (-9999)).detune ∧
      ((BiquadFilter.mkFilter 44100).setDetune (-9999)).detune ≤ 1200) ∧
    ((BiquadFilter.mkFilter 44100).getDetunedFrequency (fun _ => 1)
      = (BiquadFilter.mkFilter 44100).frequency
        * (fun (_ : ℚ) => (1 : ℚ)) ((BiquadFilter.mkFilter 44100).detune / 1200)) ∧
    (-1 ≤ AudioMixer.clampedPan 3 ∧ AudioMixer.clampedPan 3 ≤ 1) :=
  c7_setters_clamp (BiquadFilter.mkFilter 44100) (by norm_num [BiquadFilter.mkFilter])
    1000000 (-5) 999 (-9999) 3 (fun _ => 1) rfl


/-! ### Claim C6: parser determinism on two concrete programs -/

/-- C6: `MMLParser::parse` is a pure function (hence deterministic), and on
"t120 o4 l4 c" returns exactly one NoteData with note C (enum value 0),
octave 4, duration 0.5 s, not a rest, volume 1.0; on "r2" with the parser
defaults it returns exactly one rest of duration 1.0 s. -/
theorem c6_parse_examples :
    (MMLParser.parse "t120 o4 l4 c").notes
      = [⟨0, 4, 1/2, false, WaveType.Sine, 1⟩] ∧
    (MMLParser.parse "r2").notes = [⟨0, 0, 1, true, WaveType.Sine, 1⟩] := by
  constructor <;>
  · simp [MMLParser.parse, MMLParser.parseLoop, MMLParser.applyWave,
      MMLParser.applyVolume, MMLParser.restTail, MMLParser.noteTail,
      constexprTolower, constexprIsspace, constexprIsdigit, headIsDigit, headIs,
      parseNumber, parseNumberAux, MusicUtil.noteDuration,
      FixedNoteSequence.push_back, FixedNoteSequence.empty,
      FixedNoteSequence.size, MAX_NOTE_SEQUENCE_SIZE, charToNote, String.length]
    norm_num

/-! ### Claim C10: the parsed sequence never exceeds 512 notes -/

theorem push_back_size_le (s : FixedNoteSequence) (n : NoteData)
    (h : s.size ≤ MAX_NOTE_SEQUENCE_SIZE) :
    (s.push_back n).size ≤ MAX_NOTE_SEQUENCE_SIZE := by
  unfold FixedNoteSequence.push_back
  split
  · next hlt =>
      simp only [FixedNoteSequence.size, MAX_NOTE_SEQUENCE_SIZE,
        List.length_append, List.length_cons, List.length_nil] at hlt ⊢
      omega
  · exact h

set_option maxHeartbeats 1600000 in
theorem parseLoop_size_le (fuel : ℕ) :
    ∀ (st : MMLState) (cs : List Char) (acc : FixedNoteSequence),
      acc.size ≤ MAX_NOTE_SEQUENCE_SIZE →
      (MMLParser.parseLoop fuel st cs acc).size ≤ MAX_NOTE_SEQUENCE_SIZE := by
  induction fuel with
  | zero =>
      intro st cs acc h
      rw [MMLParser.parseLoop]
      exact h
  | succ fuel ih =>
      intro st cs acc h
      cases cs with
      | nil =>
          rw [MMLParser.parseLoop]
          exact h
      | cons ch rest =>
          rw [MMLParser.parseLoop]
          by_cases h1 : constexprIsspace (constexprTolower ch) = true
          · rw [if_pos h1]; exact ih _ _ _ h
          rw [if_neg h1]
          by_cases h2 : constexprTolower ch = 't'
          · rw [if_pos h2]; exact ih _ _ _ h
          rw [if_neg h2]
          by_cases h3 : constexprTolower ch = 'l'
          · rw [if_pos h3]; exact ih _ _ _ h
          rw [if_neg h3]
          by_cases h4 : constexprTolower ch = 'o'
          · rw [if_pos h4]; exact ih _ _ _ h
          rw [if_neg h4]
          by_cases h5 : constexprTolower ch = '@'
          · rw [if_pos h5]; exact ih _ _ _ h
          rw [if_neg h5]
          by_cases h6 : constexprTolower ch = 'v'
          · rw [if_pos h6]; exact ih _ _ _ h
          rw [if_neg h6]
          by_cases h7 : constexprTolower ch = '>'
          · rw [if_pos h7]; exact ih _ _ _ h
          rw [if_neg h7]
          by_cases h8 : constexprTolower ch = '<'
          · rw [if_pos h8]; exact ih _ _ _ h
          rw [if_neg h8]
          by_cases h9 : constexprTolower ch = 'r'
          · rw [if_pos h9]; exact ih _ _ _ (push_back_size_le _ _ h)
          rw [if_neg h9]
          by_cases h10 : 'a' ≤ constexprTolower ch ∧ constexprTolower ch ≤ 'g'
          · rw [if_pos h10]; exact ih _ _ _ (push_back_size_le _ _ h)
          rw [if_neg h10]
          exact ih _ _ _ h

/-- C10: for every input string the parsed sequence holds at most
MAX_NOTE_SEQUENCE_SIZE (512) notes, because `push_back` silently discards
notes once the size has reached capacity; more generally, starting from
any sequence within capacity, any series of push_back calls stays within
capacity. -/
theorem c10_parse_size_bounded (mml : String) (s : FixedNoteSequence)
    (ns : List NoteData) (hs : s.size ≤ MAX_NOTE_SEQUENCE_SIZE) :
    (MMLParser.parse mml).size ≤ MAX_NOTE_SEQUENCE_SIZE ∧
    (ns.foldl FixedNoteSequence.push_back s).size ≤ MAX_NOTE_SEQUENCE_SIZE := by
  constructor
  · exact parseLoop_size_le _ _ _ _ (Nat.zero_le _)
  · induction ns generalizing s with
    | nil => exact hs
    | cons n rest ih => exact ih _ (push_back_size_le _ _ hs)

/-- C10 witness: the theorem at the input "c", the empty sequence and one
pushed note. -/
theorem c10_parse_size_bounded_witness :
    (MMLParser.parse "c").size ≤ MAX_NOTE_SEQUENCE_SIZE ∧
    (([⟨0, 4, 1/2, false, WaveType.Sine, 1⟩] : List NoteData).foldl
        FixedNoteSequence.push_back FixedNoteSequence.empty).size
      ≤ MAX_NOTE_SEQUENCE_SIZE :=
  c10_parse_size_bounded "c" FixedNoteSequence.empty
    [⟨0, 4, 1/2, false, WaveType.Sine, 1⟩] (Nat.zero_le _)


/-! ### Claim C9: play() on an empty note list has no effect -/

/-- C9: for every sequencer whose note list is empty, `play()` returns
immediately with the state unchanged (isPlaying stays as it was, note
index, elapsed time and timer untouched) and no note-on/note-off or any
other call issued to the synthesizer. -/
theorem c9_play_empty (s : Sequencer) (h : s.sequence = []) :
    s.play = (s, ([] : List SynthEvent)) := by
  have hc : s.sequence.isEmpty = true := by rw [h]; rfl
  unfold Sequencer.play
  rw [if_pos hc]

/-- C9 witness: `play` on a freshly constructed sequencer (empty list). -/
theorem c9_play_empty_witness :
    (Sequencer.mkSeq (SimpleSynthesizer.mkSynth 44100 true) 120).play
      = (Sequencer.mkSeq (SimpleSynthesizer.mkSynth 44100 true) 120,
         ([] : List SynthEvent)) :=
  c9_play_empty _ rfl

/-! ### Claim C8: stop() is idempotent -/

theorem envelope_noteOff_idem (e : Envelope) : e.noteOff.noteOff = e.noteOff := by
  by_cases h : e.state = EnvState.Idle
  · have hc : ¬ (e.state ≠ EnvState.Idle) := by simp [h]
    have h1 : e.noteOff = e := by
      unfold Envelope.noteOff
      rw [if_neg hc]
    rw [h1, h1]
  · have h1 : e.noteOff
        = { e with state := .Release, releaseLevel := e.currentLevel } := by
      unfold Envelope.noteOff
      rw [if_pos h]
    rw [h1]
    have hc2 : ({ e with state := EnvState.Release,
                         releaseLevel := e.currentLevel } : Envelope).state
        ≠ EnvState.Idle := by
      simp
    unfold Envelope.noteOff
    rw [if_pos hc2]

theorem synth_noteOff_idem (s : SimpleSynthesizer) :
    s.noteOff.noteOff = s.noteOff := by
  by_cases h : s.gate
  · have h1 : s.noteOff = { s with noteOffTime := s.getCurrentTime,
                                   gate := false, env := s.env.noteOff } := by
      unfold SimpleSynthesizer.noteOff
      rw [if_pos h]
    rw [h1]
    have hc : ¬ (({ s with noteOffTime := s.getCurrentTime, gate := false,
                           env := s.env.noteOff } : SimpleSynthesizer).gate
        = true) := by simp
    unfold SimpleSynthesizer.noteOff
    rw [if_neg hc]
  · have h1 : s.noteOff = s := by
      unfold SimpleSynthesizer.noteOff
      rw [if_neg h]
    rw [h1, h1]

theorem seqStop_idem (s : Sequencer) :
    (Sequencer.stop (Sequencer.stop s).1).1 = (Sequencer.stop s).1 := by
  unfold Sequencer.stop
  dsimp only
  rw [synth_noteOff_idem]

theorem mtStop_idem (m : MultiTrackSequencer) : m.stop.stop = m.stop := by
  unfold MultiTrackSequencer.stop
  dsimp only
  congr 1
  rw [List.map_map]
  induction m.seqs with
  | nil => rfl
  | cons a t ih =>
      simp only [List.map_cons, Function.comp, List.cons.injEq]
      exact ⟨seqStop_idem a, by simpa [Function.comp] using ih⟩

theorem stopCurrent_id (m : BGMManager) : m.stopCurrent.currentBgmId = "" := by
  unfold BGMManager.stopCurrent
  split
  · rfl
  · next h => push_neg at h; exact h

theorem stopCurrent_fadeIn (m : BGMManager) : m.stopCurrent.fadeIn = m.fadeIn := by
  unfold BGMManager.stopCurrent
  split <;> rfl

theorem stopFadeIn_id (m : BGMManager) :
    m.stopFadeIn.currentBgmId = m.currentBgmId := by
  unfold BGMManager.stopFadeIn
  split <;> rfl

theorem stopFadeOut_id (m : BGMManager) :
    m.stopFadeOut.currentBgmId = m.currentBgmId := by
  unfold BGMManager.stopFadeOut
  split <;> rfl

theorem stopFadeOut_fadeIn (m : BGMManager) :
    m.stopFadeOut.fadeIn = m.fadeIn := by
  unfold BGMManager.stopFadeOut
  split <;> rfl

theorem stopFadeIn_kills (m : BGMManager) :
    ¬ (m.stopFadeIn.fadeIn.isFading = true ∧ m.stopFadeIn.fadeIn.bgm.isSome = true) := by
  unfold BGMManager.stopFadeIn
  split
  · simp
  · next h => exact h

theorem stopFadeOut_kills (m : BGMManager) :
    ¬ (m.stopFadeOut.fadeOut.isFading = true ∧ m.stopFadeOut.fadeOut.bgm.isSome = true) := by
  unfold BGMManager.stopFadeOut
  split
  · simp
  · next h => exact h

theorem stopCurrent_noop (m : BGMManager) (h : m.currentBgmId = "") :
    m.stopCurrent = m := by
  have hc : ¬ (m.currentBgmId ≠ "") := by simp [h]
  unfold BGMManager.stopCurrent
  rw [if_neg hc]

theorem stopFadeIn_noop (m : BGMManager)
    (h : ¬ (m.fadeIn.isFading = true ∧ m.fadeIn.bgm.isSome = true)) :
    m.stopFadeIn = m := by
  unfold BGMManager.stopFadeIn
  rw [if_neg h]

theorem stopFadeOut_noop (m : BGMManager)
    (h : ¬ (m.fadeOut.isFading = true ∧ m.fadeOut.bgm.isSome = true)) :
    m.stopFadeOut = m := by
  unfold BGMManager.stopFadeOut
  rw [if_neg h]

theorem bgmStop_idem (m : BGMManager) : m.stop.stop = m.stop := by
  have h1 : m.stop.currentBgmId = "" := by
    unfold BGMManager.stop
    rw [stopFadeOut_id, stopFadeIn_id, stopCurrent_id]
  have h2 : ¬ (m.stop.fadeIn.isFading = true ∧ m.stop.fadeIn.bgm.isSome = true) := by
    unfold BGMManager.stop
    rw [stopFadeOut_fadeIn]
    exact stopFadeIn_kills _
  have h3 : ¬ (m.stop.fadeOut.isFading = true ∧ m.stop.fadeOut.bgm.isSome = true) := by
    unfold BGMManager.stop
    exact stopFadeOut_kills _
  conv_lhs => rw [BGMManager.stop]
  rw [stopCurrent_noop _ h1, stopFadeIn_noop _ h2, stopFadeOut_noop _ h3]

/-- C8: `stop()` is idempotent on a Sequencer, a MultiTrackSequencer and a
BGMManager: calling it again from the state one stop() produced (already
stopped: not playing, timer disarmed, no current BGM, no active fade)
leaves the entire observable state unchanged — `stop ∘ stop = stop` on
every state. -/
theorem c8_stop_idempotent (s : Sequencer) (mt : MultiTrackSequencer)
    (b : BGMManager) :
    (Sequencer.stop (Sequencer.stop s).1).1 = (Sequencer.stop s).1 ∧
    mt.stop.stop = mt.stop ∧
    b.stop.stop = b.stop :=
  ⟨seqStop_idem s, mtStop_idem mt, bgmStop_idem b⟩


/-! ### Claim C3: setLoop(true, N) plays exactly N+1 traversals -/

/-- `playCurrentNote` touches only the synthesizer: every sequencer-level
field is unchanged. -/
theorem playCurrentNote_fields (s : Sequencer) :
    (s.playCurrentNote).1.sequence = s.sequence ∧
    (s.playCurrentNote).1.currentNoteIndex = s.currentNoteIndex ∧
    (s.playCurrentNote).1.isPlaying = s.isPlaying ∧
    (s.playCurrentNote).1.sequenceTime = s.sequenceTime ∧
    (s.playCurrentNote).1.loopEnabled = s.loopEnabled ∧
    (s.playCurrentNote).1.loopCount = s.loopCount ∧
    (s.playCurrentNote).1.currentLoop = s.currentLoop ∧
    (s.playCurrentNote).1.ghostTraversals = s.ghostTraversals := by
  unfold Sequencer.playCurrentNote
  split
  · dsimp only
    split
    · exact ⟨rfl, rfl, rfl, rfl, rfl, rfl, rfl, rfl⟩
    · exact ⟨rfl, rfl, rfl, rfl, rfl, rfl, rfl, rfl⟩
  · exact ⟨rfl, rfl, rfl, rfl, rfl, rfl, rfl, rfl⟩

/-- A tick on a stopped (or note-list-empty) sequencer is a no-op. -/
theorem internalUpdate_noop (d : ℚ) (s : Sequencer)
    (h : ¬ s.isPlaying = true ∨ s.sequence.isEmpty = true) :
    (s.internalUpdate d).1 = s := by
  unfold Sequencer.internalUpdate
  rw [if_pos h]

/-- Case analysis of one playing tick, phrased at the sequencer's own
fields. -/
theorem internalUpdate_cases (d : ℚ) (s : Sequencer)
    (hplay : s.isPlaying = true) (hne : s.sequence ≠ [])
    (hidx : s.currentNoteIndex < s.sequence.length) :
    (s.sequenceTime + d ≥ (s.sequence.get ⟨s.currentNoteIndex, hidx⟩).duration →
      s.currentNoteIndex + 1 < s.sequence.length →
      (s.internalUpdate d).1 = (Sequencer.playCurrentNote
        { s with sequenceTime := s.sequenceTime + d
                   - (s.sequence.get ⟨s.currentNoteIndex, hidx⟩).duration,
                 currentNoteIndex := s.currentNoteIndex + 1 }).1) ∧
    (s.sequenceTime + d ≥ (s.sequence.get ⟨s.currentNoteIndex, hidx⟩).duration →
      ¬ (s.currentNoteIndex + 1 < s.sequence.length) →
      (s.internalUpdate d).1 = (Sequencer.handleSequenceEnd
        { s with sequenceTime := s.sequenceTime + d
                   - (s.sequence.get ⟨s.currentNoteIndex, hidx⟩).duration,
                 currentNoteIndex := s.currentNoteIndex + 1 }).1) ∧
    (¬ (s.sequenceTime + d ≥ (s.sequence.get ⟨s.currentNoteIndex, hidx⟩).duration) →
      (s.internalUpdate d).1 = { s with sequenceTime := s.sequenceTime + d }) := by
  have hguard : ¬ (¬ s.isPlaying = true ∨ s.sequence.isEmpty = true) := by
    push_neg
    refine ⟨hplay, ?_⟩
    simpa [List.isEmpty_iff] using hne
  unfold Sequencer.internalUpdate
  rw [if_neg hguard]
  dsimp only
  rw [dif_pos hidx]
  refine ⟨fun ht hn => ?_, fun ht hn => ?_, fun ht => ?_⟩
  · rw [if_pos ht, if_pos hn]
  · rw [if_pos ht, if_neg hn]
  · rw [if_neg ht]

/-- `handleSequenceEnd` with a finite nonnegative loop count: either the
traversal budget is exhausted and playback stops, or playback restarts at
index 0. -/
theorem handleSequenceEnd_finite (s : Sequencer) (N : ℤ)
    (hloop : s.loopEnabled = true) (hcount : s.loopCount = N) (hN : 0 ≤ N) :
    (s.currentLoop + 1 > N →
      (s.handleSequenceEnd).1 = { s with ghostTraversals := s.ghostTraversals + 1,
                                         currentLoop := s.currentLoop + 1,
                                         isPlaying := false }) ∧
    (¬ (s.currentLoop + 1 > N) →
      (s.handleSequenceEnd).1 = (Sequencer.playCurrentNote
        { s with ghostTraversals := s.ghostTraversals + 1,
                 currentLoop := s.currentLoop + 1, currentNoteIndex := 0,
                 sequenceTime := 0 }).1) := by
  have hnl : ¬ (¬ s.loopEnabled = true) := by simp [hloop]
  have hge : s.loopCount ≥ 0 := by rw [hcount]; exact hN
  unfold Sequencer.handleSequenceEnd
  dsimp only
  rw [if_neg hnl, if_pos hge]
  constructor
  · intro hdone
    have hdone2 : s.currentLoop + 1 > s.loopCount := by rw [hcount]; exact hdone
    rw [if_pos hdone2]
  · intro hdone
    have hdone2 : ¬ (s.currentLoop + 1 > s.loopCount) := by rw [hcount]; exact hdone
    rw [if_neg hdone2]

/-- `handleSequenceEnd` with looping disabled stops playback. -/
theorem handleSequenceEnd_disabled (s : Sequencer) (hloop : s.loopEnabled = false) :
    (s.handleSequenceEnd).1
      = { s with ghostTraversals := s.ghostTraversals + 1, isPlaying := false } := by
  have hnl : ¬ s.loopEnabled = true := by simp [hloop]
  unfold Sequencer.handleSequenceEnd
  dsimp only
  rw [if_pos hnl]

/-- `handleSequenceEnd` with a negative loop count (infinite looping)
restarts at index 0. -/
theorem handleSequenceEnd_infinite (s : Sequencer)
    (hloop : s.loopEnabled = true) (hneg : s.loopCount < 0) :
    (s.handleSequenceEnd).1 = (Sequencer.playCurrentNote
      { s with ghostTraversals := s.ghostTraversals + 1,
               currentNoteIndex := 0, sequenceTime := 0 }).1 := by
  have hnl : ¬ (¬ s.loopEnabled = true) := by simp [hloop]
  have hge : ¬ (s.loopCount ≥ 0) := by omega
  unfold Sequencer.handleSequenceEnd
  dsimp only
  rw [if_neg hnl, if_neg hge]


theorem seqEndInvA (notes : List NoteData) (hne : notes ≠ []) (N : ℤ) (hN : 0 ≤ N)
    (s2 : Sequencer) (hseq : s2.sequence = notes) (hloop : s2.loopEnabled = true)
    (hcount : s2.loopCount = N) (hpl : s2.isPlaying = true)
    (hcl : s2.currentLoop = (s2.ghostTraversals : ℤ))
    (hle : (s2.ghostTraversals : ℤ) ≤ N) :
    SeqInvA notes N (s2.handleSequenceEnd).1 := by
  obtain ⟨hdone, hrestart⟩ := handleSequenceEnd_finite s2 N hloop hcount hN
  by_cases hd : s2.currentLoop + 1 > N
  · rw [hdone hd]
    refine ⟨hseq, hloop, hcount, Or.inr ⟨rfl, ?_⟩⟩
    show ((s2.ghostTraversals + 1 : ℕ) : ℤ) = N + 1
    push_cast
    omega
  · rw [hrestart hd]
    have hlen : 0 < notes.length := List.length_pos.mpr hne
    refine ⟨?_, ?_, ?_, Or.inl ⟨?_, ?_, ?_, ?_⟩⟩
    · simp only [playCurrentNote_fields]
      exact hseq
    · simp only [playCurrentNote_fields]
      exact hloop
    · simp only [playCurrentNote_fields]
      exact hcount
    · simp only [playCurrentNote_fields]
      exact hpl
    · simp only [playCurrentNote_fields]
      exact hlen
    · simp only [playCurrentNote_fields]
      show s2.currentLoop + 1 = ((s2.ghostTraversals + 1 : ℕ) : ℤ)
      push_cast
      omega
    · simp only [playCurrentNote_fields]
      show ((s2.ghostTraversals + 1 : ℕ) : ℤ) ≤ N
      push_cast
      omega

theorem seqEndInvB (notes : List NoteData) (s2 : Sequencer)
    (hseq : s2.sequence = notes) (hloop : s2.loopEnabled = false)
    (hg : s2.ghostTraversals = 0) :
    SeqInvB notes (s2.handleSequenceEnd).1 := by
  rw [handleSequenceEnd_disabled s2 hloop]
  exact ⟨hseq, hloop, Or.inr ⟨rfl, by show s2.ghostTraversals + 1 = 1; omega⟩⟩

theorem seqEndInvC (notes : List NoteData) (hne : notes ≠ []) (s2 : Sequencer)
    (hseq : s2.sequence = notes) (hloop : s2.loopEnabled = true)
    (hneg : s2.loopCount < 0) (hpl : s2.isPlaying = true) :
    SeqInvC notes (s2.handleSequenceEnd).1 := by
  rw [handleSequenceEnd_infinite s2 hloop hneg]
  have hlen : 0 < notes.length := List.length_pos.mpr hne
  refine ⟨?_, ?_, ?_, ?_, ?_⟩ <;> simp only [playCurrentNote_fields]
  · exact hseq
  · exact hloop
  · exact hneg
  · exact hpl
  · exact hlen


theorem seqInvA_step (notes : List NoteData) (hne : notes ≠ []) (N : ℤ)
    (hN : 0 ≤ N) (d : ℚ) (s : Sequencer) (hinv : SeqInvA notes N s) :
    SeqInvA notes N (s.internalUpdate d).1 := by
  obtain ⟨hseq, hloop, hcount, hdisj⟩ := hinv
  rcases hdisj with ⟨hpl, hidx, hcl, hle⟩ | ⟨hstop, hg⟩
  · have hidx2 : s.currentNoteIndex < s.sequence.length := by rw [hseq]; exact hidx
    have hne2 : s.sequence ≠ [] := by rw [hseq]; exact hne
    obtain ⟨hcase1, hcase2, hcase3⟩ := internalUpdate_cases d s hpl hne2 hidx2
    by_cases ht : s.sequenceTime + d
        ≥ (s.sequence.get ⟨s.currentNoteIndex, hidx2⟩).duration
    · by_cases hn : s.currentNoteIndex + 1 < s.sequence.length
      · rw [hcase1 ht hn]
        have hn2 : s.currentNoteIndex + 1 < notes.length := by
          rw [← hseq]; exact hn
        refine ⟨?_, ?_, ?_, Or.inl ⟨?_, ?_, ?_, ?_⟩⟩ <;>
          simp only [playCurrentNote_fields]
        · exact hseq
        · exact hloop
        · exact hcount
        · exact hpl
        · exact hn2
        · exact hcl
        · exact hle
      · rw [hcase2 ht hn]
        exact seqEndInvA notes hne N hN _ hseq hloop hcount hpl hcl hle
    · rw [hcase3 ht]
      exact ⟨hseq, hloop, hcount, Or.inl ⟨hpl, hidx, hcl, hle⟩⟩
  · rw [internalUpdate_noop d s (Or.inl (by simp [hstop]))]
    exact ⟨hseq, hloop, hcount, Or.inr ⟨hstop, hg⟩⟩

theorem seqInvB_step (notes : List NoteData) (hne : notes ≠ []) (d : ℚ)
    (s : Sequencer) (hinv : SeqInvB notes s) : SeqInvB notes (s.internalUpdate d).1 := by
  obtain ⟨hseq, hloop, hdisj⟩ := hinv
  rcases hdisj with ⟨hpl, hidx, hg⟩ | ⟨hstop, hg⟩
  · have hidx2 : s.currentNoteIndex < s.sequence.length := by rw [hseq]; exact hidx
    have hne2 : s.sequence ≠ [] := by rw [hseq]; exact hne
    obtain ⟨hcase1, hcase2, hcase3⟩ := internalUpdate_cases d s hpl hne2 hidx2
    by_cases ht : s.sequenceTime + d
        ≥ (s.sequence.get ⟨s.currentNoteIndex, hidx2⟩).duration
    · by_cases hn : s.currentNoteIndex + 1 < s.sequence.length
      · rw [hcase1 ht hn]
        have hn2 : s.currentNoteIndex + 1 < notes.length := by
          rw [← hseq]; exact hn
        refine ⟨?_, ?_, Or.inl ⟨?_, ?_, ?_⟩⟩ <;>
          simp only [playCurrentNote_fields]
        · exact hseq
        · exact hloop
        · exact hpl
        · exact hn2
        · exact hg
      · rw [hcase2 ht hn]
        exact seqEndInvB notes _ hseq hloop hg
    · rw [hcase3 ht]
      exact ⟨hseq, hloop, Or.inl ⟨hpl, hidx, hg⟩⟩
  · rw [internalUpdate_noop d s (Or.inl (by simp [hstop]))]
    exact ⟨hseq, hloop, Or.inr ⟨hstop, hg⟩⟩

theorem seqInvC_step (notes : List NoteData) (hne : notes ≠ []) (d : ℚ)
    (s : Sequencer) (hinv : SeqInvC notes s) : SeqInvC notes (s.internalUpdate d).1 := by
  obtain ⟨hseq, hloop, hneg, hpl, hidx⟩ := hinv
  have hidx2 : s.currentNoteIndex < s.sequence.length := by rw [hseq]; exact hidx
  have hne2 : s.sequence ≠ [] := by rw [hseq]; exact hne
  obtain ⟨hcase1, hcase2, hcase3⟩ := internalUpdate_cases d s hpl hne2 hidx2
  by_cases ht : s.sequenceTime + d
      ≥ (s.sequence.get ⟨s.currentNoteIndex, hidx2⟩).duration
  · by_cases hn : s.currentNoteIndex + 1 < s.sequence.length
    · rw [hcase1 ht hn]
      have hn2 : s.currentNoteIndex + 1 < notes.length := by
        rw [← hseq]; exact hn
      refine ⟨?_, ?_, ?_, ?_, ?_⟩ <;> simp only [playCurrentNote_fields]
      · exact hseq
      · exact hloop
      · exact hneg
      · exact hpl
      · exact hn2
    · rw [hcase2 ht hn]
      exact seqEndInvC notes hne _ hseq hloop hneg hpl
  · rw [hcase3 ht]
    exact ⟨hseq, hloop, hneg, hpl, hidx⟩

theorem seqInvA_run (notes : List NoteData) (hne : notes ≠ []) (N : ℤ)
    (hN : 0 ≤ N) (ds : List ℚ) (s : Sequencer) (hinv : SeqInvA notes N s) :
    SeqInvA notes N (s.runTicks ds) := by
  induction ds generalizing s with
  | nil => exact hinv
  | cons d rest ih =>
      exact ih _ (seqInvA_step notes hne N hN d s hinv)

theorem seqInvB_run (notes : List NoteData) (hne : notes ≠ []) (ds : List ℚ)
    (s : Sequencer) (hinv : SeqInvB notes s) : SeqInvB notes (s.runTicks ds) := by
  induction ds generalizing s with
  | nil => exact hinv
  | cons d rest ih => exact ih _ (seqInvB_step notes hne d s hinv)

theorem seqInvC_run (notes : List NoteData) (hne : notes ≠ []) (ds : List ℚ)
    (s : Sequencer) (hinv : SeqInvC notes s) : SeqInvC notes (s.runTicks ds) := by
  induction ds generalizing s with
  | nil => exact hinv
  | cons d rest ih => exact ih _ (seqInvC_step notes hne d s hinv)


theorem play_spec (s : Sequencer) (hne : s.sequence ≠ []) :
    (s.play).1 = { (Sequencer.playCurrentNote
      { s with currentNoteIndex := 0, sequenceTime := 0, currentLoop := 0,
               isPlaying := true }).1 with timerArmed := true } := by
  have hc : ¬ s.sequence.isEmpty = true := by
    simpa [List.isEmpty_iff] using hne
  unfold Sequencer.play
  rw [if_neg hc]

theorem seqInvA_play (notes : List NoteData) (hne : notes ≠ []) (N : ℤ)
    (hN : 0 ≤ N) (s : Sequencer) (hseq : s.sequence = notes)
    (hloop : s.loopEnabled = true) (hcount : s.loopCount = N)
    (hg : s.ghostTraversals = 0) : SeqInvA notes N (s.play).1 := by
  have hne2 : s.sequence ≠ [] := by rw [hseq]; exact hne
  have hlen : 0 < notes.length := List.length_pos.mpr hne
  rw [play_spec s hne2]
  refine ⟨?_, ?_, ?_, Or.inl ⟨?_, ?_, ?_, ?_⟩⟩ <;>
    simp only [playCurrentNote_fields]
  · exact hseq
  · exact hloop
  · exact hcount
  · exact hlen
  · show (0 : ℤ) = (s.ghostTraversals : ℤ)
    rw [hg]
    rfl
  · show (s.ghostTraversals : ℤ) ≤ N
    rw [hg]
    exact_mod_cast hN

theorem seqInvB_play (notes : List NoteData) (hne : notes ≠ [])
    (s : Sequencer) (hseq : s.sequence = notes) (hloop : s.loopEnabled = false)
    (hg : s.ghostTraversals = 0) : SeqInvB notes (s.play).1 := by
  have hne2 : s.sequence ≠ [] := by rw [hseq]; exact hne
  have hlen : 0 < notes.length := List.length_pos.mpr hne
  rw [play_spec s hne2]
  refine ⟨?_, ?_, Or.inl ⟨?_, ?_, ?_⟩⟩ <;> simp only [playCurrentNote_fields]
  · exact hseq
  · exact hloop
  · exact hlen
  · exact hg

theorem seqInvC_play (notes : List NoteData) (hne : notes ≠ [])
    (s : Sequencer) (hseq : s.sequence = notes) (hloop : s.loopEnabled = true)
    (hneg : s.loopCount < 0) : SeqInvC notes (s.play).1 := by
  have hne2 : s.sequence ≠ [] := by rw [hseq]; exact hne
  have hlen : 0 < notes.length := List.length_pos.mpr hne
  rw [play_spec s hne2]
  refine ⟨?_, ?_, ?_, ?_, ?_⟩ <;> simp only [playCurrentNote_fields]
  · exact hseq
  · exact hloop
  · exact hneg
  · exact hlen

theorem seqInvT_play (notes : List NoteData) (hne : notes ≠ []) (N : ℤ)
    (hN : 0 ≤ N) (s : Sequencer) (hseq : s.sequence = notes)
    (hloop : s.loopEnabled = true) (hcount : s.loopCount = N)
    (hg : s.ghostTraversals = 0) : SeqInvT notes N 0 (s.play).1 := by
  have hne2 : s.sequence ≠ [] := by rw [hseq]; exact hne
  have hlen : 0 < notes.length := List.length_pos.mpr hne
  rw [play_spec s hne2]
  refine ⟨?_, ?_, ?_, Or.inl ⟨?_, ?_, ?_, ?_, ?_, ?_⟩⟩ <;>
    simp only [playCurrentNote_fields]
  · exact hseq
  · exact hloop
  · exact hcount
  · exact hlen
  · show (0 : ℤ) = (s.ghostTraversals : ℤ)
    rw [hg]
    rfl
  · show (s.ghostTraversals : ℤ) ≤ N
    rw [hg]
    exact_mod_cast hN
  · show s.ghostTraversals * notes.length + 0 = 0
    rw [hg]
    ring
  · exact le_refl 0

theorem seqInvT_step (notes : List NoteData) (hne : notes ≠ []) (N : ℤ)
    (hN : 0 ≤ N) (D : ℚ) (hD : ∀ nd ∈ notes, nd.duration ≤ D) (k : ℕ)
    (s : Sequencer) (hinv : SeqInvT notes N k s) :
    SeqInvT notes N (k + 1) (s.internalUpdate D).1 := by
  obtain ⟨hseq, hloop, hcount, hdisj⟩ := hinv
  rcases hdisj with ⟨hpl, hidx, hcl, hle, hk, ht0⟩ | ⟨hstop, hg⟩
  · have hidx2 : s.currentNoteIndex < s.sequence.length := by rw [hseq]; exact hidx
    have hne2 : s.sequence ≠ [] := by rw [hseq]; exact hne
    obtain ⟨hcase1, hcase2, hcase3⟩ := internalUpdate_cases D s hpl hne2 hidx2
    have hmem : s.sequence.get ⟨s.currentNoteIndex, hidx2⟩ ∈ notes := by
      rw [← hseq]
      exact List.get_mem _ _ _
    have hdur : (s.sequence.get ⟨s.currentNoteIndex, hidx2⟩).duration ≤ D :=
      hD _ hmem
    have ht : s.sequenceTime + D
        ≥ (s.sequence.get ⟨s.currentNoteIndex, hidx2⟩).duration := by linarith
    by_cases hn : s.currentNoteIndex + 1 < s.sequence.length
    · rw [hcase1 ht hn]
      have hn2 : s.currentNoteIndex + 1 < notes.length := by rw [← hseq]; exact hn
      refine ⟨?_, ?_, ?_, Or.inl ⟨?_, ?_, ?_, ?_, ?_, ?_⟩⟩ <;>
        simp only [playCurrentNote_fields]
      · exact hseq
      · exact hloop
      · exact hcount
      · exact hpl
      · exact hn2
      · exact hcl
      · exact hle
      · show s.ghostTraversals * notes.length + (s.currentNoteIndex + 1) = k + 1
        omega
      · show (0 : ℚ) ≤ s.sequenceTime + D
            - (s.sequence.get ⟨s.currentNoteIndex, hidx2⟩).duration
        linarith
    · rw [hcase2 ht hn]
      have hidxeq : s.currentNoteIndex + 1 = notes.length := by
        rw [← hseq]
        rw [hseq] at hidx2 ⊢
        rw [← hseq] at hidx2 ⊢
        omega
      obtain ⟨hdone, hrestart⟩ := handleSequenceEnd_finite
        { s with sequenceTime := s.sequenceTime + D
                   - (s.sequence.get ⟨s.currentNoteIndex, hidx2⟩).duration,
                 currentNoteIndex := s.currentNoteIndex + 1 } N hloop hcount hN
      by_cases hd : s.currentLoop + 1 > N
      · rw [hdone hd]
        refine ⟨hseq, hloop, hcount, Or.inr ⟨rfl, ?_⟩⟩
        show ((s.ghostTraversals + 1 : ℕ) : ℤ) = N + 1
        push_cast
        omega
      · rw [hrestart hd]
        have hlen : 0 < notes.length := List.length_pos.mpr hne
        refine ⟨?_, ?_, ?_, Or.inl ⟨?_, ?_, ?_, ?_, ?_, ?_⟩⟩ <;>
          simp only [playCurrentNote_fields]
        · exact hseq
        · exact hloop
        · exact hcount
        · exact hpl
        · exact hlen
        · show s.currentLoop + 1 = ((s.ghostTraversals + 1 : ℕ) : ℤ)
          push_cast
          omega
        · show ((s.ghostTraversals + 1 : ℕ) : ℤ) ≤ N
          push_cast
          omega
        · show (s.ghostTraversals + 1) * notes.length + 0 = k + 1
          calc (s.ghostTraversals + 1) * notes.length + 0
              = s.ghostTraversals * notes.length + notes.length := by ring
            _ = s.ghostTraversals * notes.length + (s.currentNoteIndex + 1) := by
                rw [hidxeq]
            _ = (s.ghostTraversals * notes.length + s.currentNoteIndex) + 1 := by
                ring
            _ = k + 1 := by rw [hk]
        · exact le_refl 0
  · rw [internalUpdate_noop D s (Or.inl (by simp [hstop]))]
    exact ⟨hseq, hloop, hcount, Or.inr ⟨hstop, hg⟩⟩

theorem runTicks_append (l1 l2 : List ℚ) (s : Sequencer) :
    s.runTicks (l1 ++ l2) = (s.runTicks l1).runTicks l2 := by
  unfold Sequencer.runTicks
  exact List.foldl_append _ _ _ _

theorem seqInvT_run (notes : List NoteData) (hne : notes ≠ []) (N : ℤ)
    (hN : 0 ≤ N) (D : ℚ) (hD : ∀ nd ∈ notes, nd.duration ≤ D) (k : ℕ)
    (s : Sequencer) (hinv : SeqInvT notes N 0 s) :
    SeqInvT notes N k (s.runTicks (List.replicate k D)) := by
  induction k with
  | zero => exact hinv
  | succ k ih =>
      rw [List.replicate_succ', runTicks_append]
      exact seqInvT_step notes hne N hN D hD k _ ih

theorem seqInvT_final (notes : List NoteData) (N : ℤ) (hN : 0 ≤ N)
    (s : Sequencer)
    (h : SeqInvT notes N ((N.toNat + 1) * notes.length) s) :
    s.isPlaying = false ∧ (s.ghostTraversals : ℤ) = N + 1 := by
  rcases h.2.2.2 with ⟨hpl, hidx, hcl, hle, hk, ht0⟩ | hr
  · exfalso
    have hgle : s.ghostTraversals ≤ N.toNat := by omega
    have h1 : s.ghostTraversals * notes.length + s.currentNoteIndex
        < (s.ghostTraversals + 1) * notes.length := by
      calc s.ghostTraversals * notes.length + s.currentNoteIndex
          < s.ghostTraversals * notes.length + notes.length :=
            Nat.add_lt_add_left hidx _
        _ = (s.ghostTraversals + 1) * notes.length := by ring
    have h2 : (s.ghostTraversals + 1) * notes.length
        ≤ (N.toNat + 1) * notes.length :=
      Nat.mul_le_mul_right _ (by omega)
    linarith [hk, h1, h2]
  · exact hr


/-- C3: for a sequencer with a nonempty note list, starting from `play()`:
with `setLoop(true, N)` and N ≥ 0, whenever `isPlaying()` has become
false the note list was traversed exactly N+1 times, and while still
playing at most N traversals have completed — and with ticks at least as
long as every note duration, after (N+1)·length ticks playback HAS
stopped with exactly N+1 traversals (N = 0 plays the list once); with
looping disabled, playback stops at the first end of list after exactly
one traversal; with a negative count, playback never stops (restarts from
index 0 forever). -/
theorem c3_loop_traversals (synth0 : SimpleSynthesizer) (bpm : ℚ)
    (notes : List NoteData) (hne : notes ≠ [])
    (N : ℤ) (hN : 0 ≤ N) (c : ℤ) (Ninf : ℤ) (hNinf : Ninf < 0)
    (ds : List ℚ) (D : ℚ) (hD : ∀ nd ∈ notes, nd.duration ≤ D) :
    ((Sequencer.runTicks ds
        ((((Sequencer.mkSeq synth0 bpm).setSequence notes).setLoop true N).play).1).isPlaying
          = false →
      ((Sequencer.runTicks ds
        ((((Sequencer.mkSeq synth0 bpm).setSequence notes).setLoop true N).play).1).ghostTraversals : ℤ)
          = N + 1) ∧
    ((Sequencer.runTicks ds
        ((((Sequencer.mkSeq synth0 bpm).setSequence notes).setLoop true N).play).1).isPlaying
          = true →
      ((Sequencer.runTicks ds
        ((((Sequencer.mkSeq synth0 bpm).setSequence notes).setLoop true N).play).1).ghostTraversals : ℤ)
          ≤ N) ∧
    ((Sequencer.runTicks ds
        ((((Sequencer.mkSeq synth0 bpm).setSequence notes).setLoop false c).play).1).isPlaying
          = false →
      (Sequencer.runTicks ds
        ((((Sequencer.mkSeq synth0 bpm).setSequence notes).setLoop false c).play).1).ghostTraversals
          = 1) ∧
    ((Sequencer.runTicks ds
        ((((Sequencer.mkSeq synth0 bpm).setSequence notes).setLoop false c).play).1).isPlaying
          = true →
      (Sequencer.runTicks ds
        ((((Sequencer.mkSeq synth0 bpm).setSequence notes).setLoop false c).play).1).ghostTraversals
          = 0) ∧
    ((Sequencer.runTicks ds
        ((((Sequencer.mkSeq synth0 bpm).setSequence notes).setLoop true Ninf).play).1).isPlaying
          = true) ∧
    ((Sequencer.runTicks (List.replicate ((N.toNat + 1) * notes.length) D)
        ((((Sequencer.mkSeq synth0 bpm).setSequence notes).setLoop true N).play).1).isPlaying
          = false ∧
      ((Sequencer.runTicks (List.replicate ((N.toNat + 1) * notes.length) D)
        ((((Sequencer.mkSeq synth0 bpm).setSequence notes).setLoop true N).play).1).ghostTraversals : ℤ)
          = N + 1) := by
  have hA := seqInvA_run notes hne N hN ds _
    (seqInvA_play notes hne N hN
      (((Sequencer.mkSeq synth0 bpm).setSequence notes).setLoop true N)
      rfl rfl rfl rfl)
  have hB := seqInvB_run notes hne ds _
    (seqInvB_play notes hne
      (((Sequencer.mkSeq synth0 bpm).setSequence notes).setLoop false c)
      rfl rfl rfl)
  have hC := seqInvC_run notes hne ds _
    (seqInvC_play notes hne
      (((Sequencer.mkSeq synth0 bpm).setSequence notes).setLoop true Ninf)
      rfl rfl hNinf)
  have hT := seqInvT_final notes N hN _
    (seqInvT_run notes hne N hN D hD ((N.toNat + 1) * notes.length) _
      (seqInvT_play notes hne N hN
        (((Sequencer.mkSeq synth0 bpm).setSequence notes).setLoop true N)
        rfl rfl rfl rfl))
  refine ⟨?_, ?_, ?_, ?_, ?_, hT⟩
  · intro hstop
    rcases hA.2.2.2 with ⟨hpl, _⟩ | ⟨_, hg⟩
    · rw [hstop] at hpl; cases hpl
    · exact hg
  · intro hpl
    rcases hA.2.2.2 with ⟨_, _, _, hle⟩ | ⟨hstop, _⟩
    · exact hle
    · rw [hpl] at hstop; cases hstop
  · intro hstop
    rcases hB.2.2 with ⟨hpl, _⟩ | ⟨_, hg⟩
    · rw [hstop] at hpl; cases hpl
    · exact hg
  · intro hpl
    rcases hB.2.2 with ⟨_, _, hg⟩ | ⟨hstop, _⟩
    · exact hg
    · rw [hpl] at hstop; cases hstop
  · exact hC.2.2.2.1


/-- C3 witness: one note of duration 0.5 s, N = 0, a single 1 s tick. -/
theorem c3_loop_traversals_witness :
    ((Sequencer.runTicks [1] (c3WitnessStart true 0)).isPlaying = false →
      ((Sequencer.runTicks [1] (c3WitnessStart true 0)).ghostTraversals : ℤ)
        = 0 + 1) ∧
    ((Sequencer.runTicks [1] (c3WitnessStart true 0)).isPlaying = true →
      ((Sequencer.runTicks [1] (c3WitnessStart true 0)).ghostTraversals : ℤ)
        ≤ 0) ∧
    ((Sequencer.runTicks [1] (c3WitnessStart false 0)).isPlaying = false →
      (Sequencer.runTicks [1] (c3WitnessStart false 0)).ghostTraversals = 1) ∧
    ((Sequencer.runTicks [1] (c3WitnessStart false 0)).isPlaying = true →
      (Sequencer.runTicks [1] (c3WitnessStart false 0)).ghostTraversals = 0) ∧
    ((Sequencer.runTicks [1] (c3WitnessStart true (-1))).isPlaying = true) ∧
    ((Sequencer.runTicks
        (List.replicate (((0 : ℤ).toNat + 1) * c3WitnessNotes.length) 1)
        (c3WitnessStart true 0)).isPlaying = false ∧
      ((Sequencer.runTicks
        (List.replicate (((0 : ℤ).toNat + 1) * c3WitnessNotes.length) 1)
        (c3WitnessStart true 0)).ghostTraversals : ℤ) = 0 + 1) :=
  c3_loop_traversals (SimpleSynthesizer.mkSynth 44100 true) 120 c3WitnessNotes
    (by simp [c3WitnessNotes]) 0 (le_refl 0) 0 (-1) (by norm_num) [1] 1
    (by
      intro nd hnd
      rw [c3WitnessNotes, List.mem_singleton] at hnd
      subst hnd
      norm_num)


/-! ### Claim C1: the BGM crossfade timeline -/

theorem lookup_cons_pair (k a : String) (b : MultiTrackSequencer)
    (l : List (String × MultiTrackSequencer)) :
    List.lookup k ((a, b) :: l) = if k = a then some b else List.lookup k l := by
  by_cases h : k = a
  · rw [if_pos h]
    have hb : (k == a) = true := beq_iff_eq.mpr h
    simp [List.lookup, hb]
  · rw [if_neg h]
    have hb : (k == a) = false := beq_eq_false_iff_ne.mpr h
    simp [List.lookup, hb]

theorem bgmUpdateAt_cons (id : String)
    (f : MultiTrackSequencer → MultiTrackSequencer) (a : String)
    (b : MultiTrackSequencer) (l : List (String × MultiTrackSequencer)) :
    bgmUpdateAt id f ((a, b) :: l) =
      (if a = id then (a, f b) else (a, b)) :: bgmUpdateAt id f l := rfl

theorem lookup_map_snd (g : MultiTrackSequencer → MultiTrackSequencer)
    (k : String) (l : List (String × MultiTrackSequencer)) :
    List.lookup k (l.map (fun p => (p.1, g p.2))) = (List.lookup k l).map g := by
  induction l with
  | nil => rfl
  | cons p rest ih =>
    obtain ⟨a, b⟩ := p
    rw [List.map_cons]
    change List.lookup k
        ((a, g b) :: rest.map (fun p : String × MultiTrackSequencer => (p.1, g p.2)))
      = Option.map g (List.lookup k ((a, b) :: rest))
    rw [lookup_cons_pair, lookup_cons_pair]
    by_cases h : k = a
    · rw [if_pos h, if_pos h]
      rfl
    · rw [if_neg h, if_neg h, ih]

theorem lookup_bgmUpdateAt_eq (id : String)
    (f : MultiTrackSequencer → MultiTrackSequencer)
    (l : List (String × MultiTrackSequencer)) :
    List.lookup id (bgmUpdateAt id f l) = (List.lookup id l).map f := by
  induction l with
  | nil => rfl
  | cons p rest ih =>
    obtain ⟨a, b⟩ := p
    rw [bgmUpdateAt_cons, lookup_cons_pair]
    by_cases h : a = id
    · rw [if_pos h, lookup_cons_pair, if_pos h.symm, if_pos h.symm]
      rfl
    · rw [if_neg h, lookup_cons_pair, if_neg (fun hh => h hh.symm),
        if_neg (fun hh => h hh.symm), ih]

theorem lookup_bgmUpdateAt_ne {k id : String} (h : k ≠ id)
    (f : MultiTrackSequencer → MultiTrackSequencer)
    (l : List (String × MultiTrackSequencer)) :
    List.lookup k (bgmUpdateAt id f l) = List.lookup k l := by
  induction l with
  | nil => rfl
  | cons p rest ih =>
    obtain ⟨a, b⟩ := p
    rw [bgmUpdateAt_cons, lookup_cons_pair]
    by_cases ha : a = id
    · have hk : ¬ k = a := fun hh => h (hh.trans ha)
      rw [if_pos ha, lookup_cons_pair, if_neg hk, if_neg hk, ih]
    · rw [if_neg ha, lookup_cons_pair]
      by_cases hk : k = a
      · rw [if_pos hk, if_pos hk]
      · rw [if_neg hk, if_neg hk, ih]

theorem mtSetMasterVolume_masterVolume (v : ℚ) (m : MultiTrackSequencer) :
    (MultiTrackSequencer.setMasterVolume v m).masterVolume = sdlClamp v 0 1 := rfl

theorem mtSetMasterVolume_isPlaying (v : ℚ) (m : MultiTrackSequencer) :
    (MultiTrackSequencer.setMasterVolume v m).isPlaying = m.isPlaying := rfl

theorem mtPlay_masterVolume (m : MultiTrackSequencer) :
    m.play.masterVolume = m.masterVolume := rfl

theorem mtStop_masterVolume (m : MultiTrackSequencer) :
    m.stop.masterVolume = m.masterVolume := rfl

theorem mtStop_isPlaying (m : MultiTrackSequencer) :
    m.stop.isPlaying = false := by
  unfold MultiTrackSequencer.stop MultiTrackSequencer.isPlaying
  simp [List.any_map, Function.comp, Sequencer.stop]

theorem mtUpdate_masterVolume (m : MultiTrackSequencer) :
    m.update.masterVolume = m.masterVolume := rfl

theorem mtUpdate_isPlaying (m : MultiTrackSequencer) :
    m.update.isPlaying = m.isPlaying := by
  unfold MultiTrackSequencer.update MultiTrackSequencer.isPlaying
  rw [List.any_map]
  rfl

theorem sdlClamp_unit_ge_one {x : ℚ} (h : 1 ≤ x) : sdlClamp x 0 1 = 1 := by
  unfold sdlClamp
  rw [if_neg (not_lt.mpr (le_trans zero_le_one h))]
  by_cases hx : x > 1
  · rw [if_pos hx]
  · rw [if_neg hx]
    exact le_antisymm (not_lt.mp hx) h

/-- `BGMManager::update` written as one record update (the two fade phases
feed the map they produce into the next phase, then every song updates). -/
theorem bgm_update_eq (d : ℚ) (m : BGMManager) :
    BGMManager.update d m =
    { m with
      fadeIn := (BGMManager.updateFadeCore m.masterVolume d m.fadeIn m.bgmMap).1,
      fadeOut := (BGMManager.updateFadeCore m.masterVolume d m.fadeOut
        (BGMManager.updateFadeCore m.masterVolume d m.fadeIn m.bgmMap).2).1,
      bgmMap := ((BGMManager.updateFadeCore m.masterVolume d m.fadeOut
        (BGMManager.updateFadeCore m.masterVolume d m.fadeIn m.bgmMap).2).2).map
          (fun p => (p.1, p.2.update)) } := rfl

/-- Evaluation of `updateFade` on an armed fade with a live song pointer. -/
theorem updateFadeCore_armed (master d : ℚ) (I B : String) (cv tv fd el : ℚ)
    (bgmMap : List (String × MultiTrackSequencer)) :
    BGMManager.updateFadeCore master d
      { bgm := some I, bgmId := B, currentVolume := cv, targetVolume := tv,
        fadeDuration := fd, elapsedTime := el, isFading := true } bgmMap =
    (let elapsed := el + d
     let progress := sdlClamp (elapsed / fd) 0 1
     let startVolume := if tv = 0 then master else 0
     let current := startVolume + (tv - startVolume) * progress
     let bgmMap2 := bgmUpdateAt I (MultiTrackSequencer.setMasterVolume current) bgmMap
     if progress ≥ 1 then
       if tv = 0 then
         ({ bgm := none, bgmId := B, currentVolume := current, targetVolume := tv,
            fadeDuration := fd, elapsedTime := elapsed, isFading := false },
           bgmUpdateAt I MultiTrackSequencer.stop bgmMap2)
       else
         ({ bgm := some I, bgmId := B, currentVolume := current, targetVolume := tv,
            fadeDuration := fd, elapsedTime := elapsed, isFading := false }, bgmMap2)
     else
       ({ bgm := some I, bgmId := B, currentVolume := current, targetVolume := tv,
          fadeDuration := fd, elapsedTime := elapsed, isFading := true }, bgmMap2)) := rfl

/-- Evaluation of `updateFade` on a disarmed fade: nothing happens. -/
theorem updateFadeCore_disarmed (master d : ℚ) (fs : FadeState)
    (bgmMap : List (String × MultiTrackSequencer)) (h : fs.isFading = false) :
    BGMManager.updateFadeCore master d fs bgmMap = (fs, bgmMap) := by
  unfold BGMManager.updateFadeCore
  rw [if_pos (Or.inl (by rw [h]; exact Bool.false_ne_true))]


/-- An armed fade whose progress stays below 1 only advances its clock and
reinterpolates the song volume. -/
theorem updateFadeCore_armed_mid (master d : ℚ) (I B : String) (cv tv el : ℚ)
    (bgmMap : List (String × MultiTrackSequencer))
    (hnp : ¬ sdlClamp ((el + d) / 2) 0 1 ≥ 1) :
    BGMManager.updateFadeCore master d
      { bgm := some I, bgmId := B, currentVolume := cv, targetVolume := tv,
        fadeDuration := 2, elapsedTime := el, isFading := true } bgmMap =
    ({ bgm := some I, bgmId := B,
       currentVolume := (if tv = 0 then master else 0)
         + (tv - (if tv = 0 then master else 0)) * sdlClamp ((el + d) / 2) 0 1,
       targetVolume := tv, fadeDuration := 2, elapsedTime := el + d,
       isFading := true },
     bgmUpdateAt I (MultiTrackSequencer.setMasterVolume
       ((if tv = 0 then master else 0)
         + (tv - (if tv = 0 then master else 0)) * sdlClamp ((el + d) / 2) 0 1))
       bgmMap) := by
  rw [updateFadeCore_armed]
  exact if_neg hnp

/-- A completed fade-out sets the song volume from the interpolation,
stops the song, releases it and disarms. -/
theorem updateFadeCore_armed_done_out (master d : ℚ) (I B : String) (cv el : ℚ)
    (bgmMap : List (String × MultiTrackSequencer))
    (hp : sdlClamp ((el + d) / 2) 0 1 ≥ 1) :
    BGMManager.updateFadeCore master d
      { bgm := some I, bgmId := B, currentVolume := cv, targetVolume := 0,
        fadeDuration := 2, elapsedTime := el, isFading := true } bgmMap =
    ({ bgm := none, bgmId := B,
       currentVolume := master + (0 - master) * sdlClamp ((el + d) / 2) 0 1,
       targetVolume := 0, fadeDuration := 2, elapsedTime := el + d,
       isFading := false },
     bgmUpdateAt I MultiTrackSequencer.stop
       (bgmUpdateAt I (MultiTrackSequencer.setMasterVolume
         (master + (0 - master) * sdlClamp ((el + d) / 2) 0 1)) bgmMap)) := by
  rw [updateFadeCore_armed]
  exact (if_pos hp).trans (if_pos (rfl : (0:ℚ) = 0))

/-- A completed fade-in (toward a nonzero master volume) sets the song
volume and disarms without stopping the song. -/
theorem updateFadeCore_armed_done_in (master d : ℚ) (I B : String) (cv el : ℚ)
    (bgmMap : List (String × MultiTrackSequencer))
    (hp : sdlClamp ((el + d) / 2) 0 1 ≥ 1) (hm0 : master ≠ 0) :
    BGMManager.updateFadeCore master d
      { bgm := some I, bgmId := B, currentVolume := cv, targetVolume := master,
        fadeDuration := 2, elapsedTime := el, isFading := true } bgmMap =
    ({ bgm := some I, bgmId := B,
       currentVolume := 0 + (master - 0) * sdlClamp ((el + d) / 2) 0 1,
       targetVolume := master, fadeDuration := 2, elapsedTime := el + d,
       isFading := false },
     bgmUpdateAt I (MultiTrackSequencer.setMasterVolume
       (0 + (master - 0) * sdlClamp ((el + d) / 2) 0 1)) bgmMap) := by
  rw [updateFadeCore_armed]
  refine ((if_pos hp).trans (if_neg hm0)).trans ?_
  rw [if_neg hm0]

/-- One `update` tick during the crossfade (accumulated time staying
under the 2-second duration) keeps the mid-crossfade invariant. -/
theorem crossfadeMid_step (master : ℚ) (oldId newId : String) (t d : ℚ)
    (m : BGMManager) (hne : oldId ≠ newId)
    (hpos : 0 < master) (hle : master ≤ 1)
    (ht : 0 ≤ t) (hd : 0 ≤ d) (htd : t + d < 2)
    (hm : CrossfadeMid master oldId newId t m) :
    CrossfadeMid master oldId newId (t + d) (BGMManager.update d m) := by
  obtain ⟨hmv, hcur, hfi, hfo, ⟨os, hos, hosv⟩, ⟨ns, hns, hnsv⟩⟩ := hm
  have hm0 : master ≠ 0 := ne_of_gt hpos
  have hp0 : (0:ℚ) ≤ (t + d) / 2 := div_nonneg (by linarith) (by norm_num)
  have hp1 : (t + d) / 2 < 1 := by linarith
  have hpc : sdlClamp ((t + d) / 2) 0 1 = (t + d) / 2 :=
    sdlClamp_eq_self hp0 (le_of_lt hp1)
  have hnp : ¬ sdlClamp ((t + d) / 2) 0 1 ≥ 1 := by
    rw [hpc]
    exact not_le.mpr hp1
  have hr1 : BGMManager.updateFadeCore m.masterVolume d m.fadeIn m.bgmMap =
      ({ bgm := some newId, bgmId := newId,
         currentVolume := master * ((t + d) / 2), targetVolume := master,
         fadeDuration := 2, elapsedTime := t + d, isFading := true },
       bgmUpdateAt newId
         (MultiTrackSequencer.setMasterVolume (master * ((t + d) / 2)))
         m.bgmMap) := by
    rw [hmv, hfi, updateFadeCore_armed_mid master d newId newId (master * (t / 2))
      master t m.bgmMap hnp, if_neg hm0, hpc,
      show (0:ℚ) + (master - 0) * ((t + d) / 2) = master * ((t + d) / 2) from by ring]
  have hr1b : (BGMManager.updateFadeCore m.masterVolume d m.fadeIn m.bgmMap).2 =
      bgmUpdateAt newId
        (MultiTrackSequencer.setMasterVolume (master * ((t + d) / 2))) m.bgmMap := by
    rw [hr1]
  have hr2 : BGMManager.updateFadeCore m.masterVolume d m.fadeOut
      (bgmUpdateAt newId
        (MultiTrackSequencer.setMasterVolume (master * ((t + d) / 2))) m.bgmMap) =
      ({ bgm := some oldId, bgmId := oldId,
         currentVolume := master * (1 - (t + d) / 2), targetVolume := 0,
         fadeDuration := 2, elapsedTime := t + d, isFading := true },
       bgmUpdateAt oldId
         (MultiTrackSequencer.setMasterVolume (master * (1 - (t + d) / 2)))
         (bgmUpdateAt newId
           (MultiTrackSequencer.setMasterVolume (master * ((t + d) / 2)))
           m.bgmMap)) := by
    rw [hmv, hfo, updateFadeCore_armed_mid master d oldId oldId
      (master * (1 - t / 2)) 0 t _ hnp, if_pos (rfl : (0:ℚ) = 0), hpc,
      show master + ((0:ℚ) - master) * ((t + d) / 2) = master * (1 - (t + d) / 2)
        from by ring]
  have hr2b : (BGMManager.updateFadeCore m.masterVolume d m.fadeOut
      (bgmUpdateAt newId
        (MultiTrackSequencer.setMasterVolume (master * ((t + d) / 2))) m.bgmMap)).2 =
      bgmUpdateAt oldId
        (MultiTrackSequencer.setMasterVolume (master * (1 - (t + d) / 2)))
        (bgmUpdateAt newId
          (MultiTrackSequencer.setMasterVolume (master * ((t + d) / 2)))
          m.bgmMap) := by
    rw [hr2]
  have efi : (BGMManager.update d m).fadeIn
      = (BGMManager.updateFadeCore m.masterVolume d m.fadeIn m.bgmMap).1 := rfl
  have efo : (BGMManager.update d m).fadeOut
      = (BGMManager.updateFadeCore m.masterVolume d m.fadeOut
          (BGMManager.updateFadeCore m.masterVolume d m.fadeIn m.bgmMap).2).1 := rfl
  have emap : (BGMManager.update d m).bgmMap
      = ((BGMManager.updateFadeCore m.masterVolume d m.fadeOut
          (BGMManager.updateFadeCore m.masterVolume d m.fadeIn m.bgmMap).2).2).map
        (fun p => (p.1, p.2.update)) := rfl
  refine ⟨hmv, hcur, ?_, ?_, ?_, ?_⟩
  · rw [efi, hr1]
  · rw [efo, hr1b, hr2]
  · refine ⟨(MultiTrackSequencer.setMasterVolume (master * (1 - (t + d) / 2)) os).update,
      ?_, ?_⟩
    · rw [emap, hr1b, hr2b, lookup_map_snd, lookup_bgmUpdateAt_eq,
        lookup_bgmUpdateAt_ne hne, hos]
      rfl
    · rw [mtUpdate_masterVolume, mtSetMasterVolume_masterVolume]
      refine sdlClamp_eq_self (mul_nonneg (le_of_lt hpos) (by linarith)) ?_
      calc master * (1 - (t + d) / 2) ≤ 1 * 1 :=
            mul_le_mul hle (by linarith) (by linarith) (by norm_num)
        _ = 1 := by norm_num
  · refine ⟨(MultiTrackSequencer.setMasterVolume (master * ((t + d) / 2)) ns).update,
      ?_, ?_⟩
    · rw [emap, hr1b, hr2b, lookup_map_snd, lookup_bgmUpdateAt_ne (Ne.symm hne),
        lookup_bgmUpdateAt_eq, hns]
      rfl
    · rw [mtUpdate_masterVolume, mtSetMasterVolume_masterVolume]
      refine sdlClamp_eq_self (mul_nonneg (le_of_lt hpos) hp0) ?_
      calc master * ((t + d) / 2) ≤ 1 * 1 :=
            mul_le_mul hle (le_of_lt hp1) hp0 (by norm_num)
        _ = 1 := by norm_num


/-- The tick that carries the accumulated crossfade time past the
2-second duration completes both fades. -/
theorem crossfadeMid_complete (master : ℚ) (oldId newId : String) (t d : ℚ)
    (m : BGMManager) (hne : oldId ≠ newId)
    (hpos : 0 < master) (hle : master ≤ 1)
    (ht : 0 ≤ t) (hd : 0 ≤ d) (htd : 2 ≤ t + d)
    (hm : CrossfadeMid master oldId newId t m) :
    CrossfadeDone master oldId newId (BGMManager.update d m) := by
  obtain ⟨hmv, hcur, hfi, hfo, ⟨os, hos, hosv⟩, ⟨ns, hns, hnsv⟩⟩ := hm
  have hm0 : master ≠ 0 := ne_of_gt hpos
  have hpc : sdlClamp ((t + d) / 2) 0 1 = 1 := sdlClamp_unit_ge_one (by linarith)
  have hp : sdlClamp ((t + d) / 2) 0 1 ≥ 1 := le_of_eq hpc.symm
  have hr1 : BGMManager.updateFadeCore m.masterVolume d m.fadeIn m.bgmMap =
      ({ bgm := some newId, bgmId := newId, currentVolume := master,
         targetVolume := master, fadeDuration := 2, elapsedTime := t + d,
         isFading := false },
       bgmUpdateAt newId (MultiTrackSequencer.setMasterVolume master) m.bgmMap) := by
    rw [hmv, hfi, updateFadeCore_armed_done_in master d newId newId
      (master * (t / 2)) t m.bgmMap hp hm0, hpc,
      show (0:ℚ) + (master - 0) * 1 = master from by ring]
  have hr1b : (BGMManager.updateFadeCore m.masterVolume d m.fadeIn m.bgmMap).2 =
      bgmUpdateAt newId (MultiTrackSequencer.setMasterVolume master) m.bgmMap := by
    rw [hr1]
  have hr2 : BGMManager.updateFadeCore m.masterVolume d m.fadeOut
      (bgmUpdateAt newId (MultiTrackSequencer.setMasterVolume master) m.bgmMap) =
      ({ bgm := none, bgmId := oldId, currentVolume := 0, targetVolume := 0,
         fadeDuration := 2, elapsedTime := t + d, isFading := false },
       bgmUpdateAt oldId MultiTrackSequencer.stop
         (bgmUpdateAt oldId (MultiTrackSequencer.setMasterVolume 0)
           (bgmUpdateAt newId (MultiTrackSequencer.setMasterVolume master)
             m.bgmMap))) := by
    rw [hmv, hfo, updateFadeCore_armed_done_out master d oldId oldId
      (master * (1 - t / 2)) t _ hp, hpc,
      show master + ((0:ℚ) - master) * 1 = 0 from by ring]
  have hr2b : (BGMManager.updateFadeCore m.masterVolume d m.fadeOut
      (bgmUpdateAt newId (MultiTrackSequencer.setMasterVolume master) m.bgmMap)).2 =
      bgmUpdateAt oldId MultiTrackSequencer.stop
        (bgmUpdateAt oldId (MultiTrackSequencer.setMasterVolume 0)
          (bgmUpdateAt newId (MultiTrackSequencer.setMasterVolume master)
            m.bgmMap)) := by
    rw [hr2]
  have efi : (BGMManager.update d m).fadeIn
      = (BGMManager.updateFadeCore m.masterVolume d m.fadeIn m.bgmMap).1 := rfl
  have efo : (BGMManager.update d m).fadeOut
      = (BGMManager.updateFadeCore m.masterVolume d m.fadeOut
          (BGMManager.updateFadeCore m.masterVolume d m.fadeIn m.bgmMap).2).1 := rfl
  have emap : (BGMManager.update d m).bgmMap
      = ((BGMManager.updateFadeCore m.masterVolume d m.fadeOut
          (BGMManager.updateFadeCore m.masterVolume d m.fadeIn m.bgmMap).2).2).map
        (fun p => (p.1, p.2.update)) := rfl
  refine ⟨hmv, hcur, ?_, ?_, ?_, ?_, ?_⟩
  · rw [efi, hr1]
  · rw [efo, hr1b, hr2]
  · rw [efo, hr1b, hr2]
  · refine ⟨((MultiTrackSequencer.setMasterVolume 0 os).stop).update, ?_, ?_, ?_⟩
    · rw [emap, hr1b, hr2b, lookup_map_snd, lookup_bgmUpdateAt_eq,
        lookup_bgmUpdateAt_eq, lookup_bgmUpdateAt_ne hne, hos]
      rfl
    · rw [mtUpdate_masterVolume, mtStop_masterVolume,
        mtSetMasterVolume_masterVolume]
      exact sdlClamp_eq_self (le_refl 0) zero_le_one
    · rw [mtUpdate_isPlaying, mtStop_isPlaying]
  · refine ⟨(MultiTrackSequencer.setMasterVolume master ns).update, ?_, ?_⟩
    · rw [emap, hr1b, hr2b, lookup_map_snd, lookup_bgmUpdateAt_ne (Ne.symm hne),
        lookup_bgmUpdateAt_ne (Ne.symm hne), lookup_bgmUpdateAt_eq, hns]
      rfl
    · rw [mtUpdate_masterVolume, mtSetMasterVolume_masterVolume]
      exact sdlClamp_eq_self (le_of_lt hpos) hle

/-- After the crossfade has completed, further ticks change nothing the
completed-crossfade invariant observes. -/
theorem crossfadeDone_step (master : ℚ) (oldId newId : String) (d : ℚ)
    (m : BGMManager) (hm : CrossfadeDone master oldId newId m) :
    CrossfadeDone master oldId newId (BGMManager.update d m) := by
  obtain ⟨hmv, hcur, hfiF, hfoF, hfoB, ⟨os, hos, hosv, hosp⟩, ⟨ns, hns, hnsv⟩⟩ := hm
  have hr1 : BGMManager.updateFadeCore m.masterVolume d m.fadeIn m.bgmMap
      = (m.fadeIn, m.bgmMap) := updateFadeCore_disarmed _ _ _ _ hfiF
  have hr1b : (BGMManager.updateFadeCore m.masterVolume d m.fadeIn m.bgmMap).2
      = m.bgmMap := by
    rw [hr1]
  have hr2 : BGMManager.updateFadeCore m.masterVolume d m.fadeOut m.bgmMap
      = (m.fadeOut, m.bgmMap) := updateFadeCore_disarmed _ _ _ _ hfoF
  have hr2b : (BGMManager.updateFadeCore m.masterVolume d m.fadeOut m.bgmMap).2
      = m.bgmMap := by
    rw [hr2]
  have efi : (BGMManager.update d m).fadeIn
      = (BGMManager.updateFadeCore m.masterVolume d m.fadeIn m.bgmMap).1 := rfl
  have efo : (BGMManager.update d m).fadeOut
      = (BGMManager.updateFadeCore m.masterVolume d m.fadeOut
          (BGMManager.updateFadeCore m.masterVolume d m.fadeIn m.bgmMap).2).1 := rfl
  have emap : (BGMManager.update d m).bgmMap
      = ((BGMManager.updateFadeCore m.masterVolume d m.fadeOut
          (BGMManager.updateFadeCore m.masterVolume d m.fadeIn m.bgmMap).2).2).map
        (fun p => (p.1, p.2.update)) := rfl
  refine ⟨hmv, hcur, ?_, ?_, ?_, ?_, ?_⟩
  · rw [efi, hr1]
    exact hfiF
  · rw [efo, hr1b, hr2]
    exact hfoF
  · rw [efo, hr1b, hr2]
    exact hfoB
  · refine ⟨os.update, ?_, ?_, ?_⟩
    · rw [emap, hr1b, hr2b, lookup_map_snd, hos]
      rfl
    · rw [mtUpdate_masterVolume]
      exact hosv
    · rw [mtUpdate_isPlaying]
      exact hosp
  · refine ⟨ns.update, ?_, ?_⟩
    · rw [emap, hr1b, hr2b, lookup_map_snd, hns]
      rfl
    · rw [mtUpdate_masterVolume]
      exact hnsv


theorem bgmRunTicks_cons (d : ℚ) (ds : List ℚ) (m : BGMManager) :
    BGMManager.runTicks (d :: ds) m
      = BGMManager.runTicks ds (BGMManager.update d m) := rfl

/-- While the accumulated tick time stays under 2 seconds, the
mid-crossfade invariant is carried through any run of ticks. -/
theorem crossfadeMid_run (master : ℚ) (oldId newId : String)
    (hne : oldId ≠ newId) (hpos : 0 < master) (hle : master ≤ 1) :
    ∀ (ds : List ℚ) (t : ℚ) (m : BGMManager),
      (∀ d ∈ ds, 0 ≤ d) → 0 ≤ t → t + ds.sum < 2 →
      CrossfadeMid master oldId newId t m →
      CrossfadeMid master oldId newId (t + ds.sum) (BGMManager.runTicks ds m) := by
  intro ds
  induction ds with
  | nil =>
    intro t m _ ht hs hm
    simpa [BGMManager.runTicks] using hm
  | cons d ds ih =>
    intro t m hds ht hs hm
    have hd : 0 ≤ d := hds d (List.mem_cons_self d ds)
    have hrest : ∀ x ∈ ds, 0 ≤ x := fun x hx => hds x (List.mem_cons_of_mem d hx)
    have hsum : 0 ≤ ds.sum := List.sum_nonneg hrest
    have hcons : (d :: ds).sum = d + ds.sum := List.sum_cons
    rw [hcons] at hs
    have hstep : t + d < 2 := by linarith
    have h1 := crossfadeMid_step master oldId newId t d m hne hpos hle ht hd hstep hm
    have h2 := ih (t + d) (BGMManager.update d m) hrest (by linarith)
      (by linarith) h1
    rw [bgmRunTicks_cons, hcons, show t + (d + ds.sum) = t + d + ds.sum from by ring]
    exact h2

/-- Once completed, the crossfade outcome survives any further ticks. -/
theorem crossfadeDone_run (master : ℚ) (oldId newId : String) :
    ∀ (ds : List ℚ) (m : BGMManager),
      CrossfadeDone master oldId newId m →
      CrossfadeDone master oldId newId (BGMManager.runTicks ds m) := by
  intro ds
  induction ds with
  | nil =>
    intro m hm
    simpa [BGMManager.runTicks] using hm
  | cons d ds ih =>
    intro m hm
    rw [bgmRunTicks_cons]
    exact ih _ (crossfadeDone_step master oldId newId d m hm)

/-- A run of ticks whose accumulated time reaches 2 seconds carries a
mid-crossfade state to the completed-crossfade outcome. -/
theorem crossfadeMid_reach (master : ℚ) (oldId newId : String)
    (hne : oldId ≠ newId) (hpos : 0 < master) (hle : master ≤ 1) :
    ∀ (ds : List ℚ) (t : ℚ) (m : BGMManager),
      (∀ d ∈ ds, 0 ≤ d) → 0 ≤ t → t < 2 → 2 ≤ t + ds.sum →
      CrossfadeMid master oldId newId t m →
      CrossfadeDone master oldId newId (BGMManager.runTicks ds m) := by
  intro ds
  induction ds with
  | nil =>
    intro t m _ ht hlt hs hm
    rw [List.sum_nil, add_zero] at hs
    exact absurd hs (not_le.mpr hlt)
  | cons d ds ih =>
    intro t m hds ht hlt hs hm
    have hd : 0 ≤ d := hds d (List.mem_cons_self d ds)
    have hrest : ∀ x ∈ ds, 0 ≤ x := fun x hx => hds x (List.mem_cons_of_mem d hx)
    have hcons : (d :: ds).sum = d + ds.sum := List.sum_cons
    rw [hcons] at hs
    rw [bgmRunTicks_cons]
    by_cases hmid : t + d < 2
    · have h1 := crossfadeMid_step master oldId newId t d m hne hpos hle ht hd hmid hm
      exact ih (t + d) (BGMManager.update d m) hrest (by linarith) hmid
        (by linarith) h1
    · have h1 := crossfadeMid_complete master oldId newId t d m hne hpos hle ht hd
        (not_lt.mp hmid) hm
      exact crossfadeDone_run master oldId newId ds _ h1

/-- `playWithCrossfade(newId, 2.0)` from a playing song `oldId` at the
full master volume arms the two fades and establishes the mid-crossfade
invariant at elapsed time 0. -/
theorem crossfade_start (m0 : BGMManager) (oldId newId : String)
    (oldSong newSong : MultiTrackSequencer) (master : ℚ)
    (hold : oldId ≠ "") (hne : oldId ≠ newId)
    (hcur : m0.currentBgmId = oldId) (hmv : m0.masterVolume = master)
    (hlo : m0.bgmMap.lookup oldId = some oldSong)
    (hln : m0.bgmMap.lookup newId = some newSong)
    (hov : oldSong.masterVolume = master) :
    CrossfadeMid master oldId newId 0
      ((BGMManager.playWithCrossfade newId 2 m0).2) := by
  have hsome : (m0.bgmMap.lookup oldId).isSome = true := by
    rw [hlo]
    rfl
  have hneq : ¬ m0.currentBgmId = newId := by
    rw [hcur]
    exact hne
  have hcond : m0.currentBgmId ≠ "" ∧ (m0.bgmMap.lookup m0.currentBgmId).isSome := by
    rw [hcur]
    exact ⟨hold, hsome⟩
  have hres : (BGMManager.playWithCrossfade newId 2 m0).2 =
      { m0 with
        currentBgmId := newId,
        bgmMap := bgmUpdateAt newId
          (fun b => (b.setMasterVolume 0).play) m0.bgmMap,
        fadeIn := { bgm := some newId, bgmId := newId, currentVolume := 0,
                    targetVolume := m0.masterVolume, fadeDuration := 2,
                    elapsedTime := 0, isFading := true },
        fadeOut := { bgm := some m0.currentBgmId, bgmId := m0.currentBgmId,
                     currentVolume := m0.masterVolume, targetVolume := 0,
                     fadeDuration := 2, elapsedTime := 0, isFading := true } } := by
    unfold BGMManager.playWithCrossfade
    rw [hln]
    simp only [if_neg hneq, if_pos hcond]
  rw [hres]
  refine ⟨hmv, rfl, ?_, ?_, ?_, ?_⟩
  · rw [hmv, show master * ((0:ℚ) / 2) = 0 from by ring]
  · rw [hmv, hcur, show master * (1 - (0:ℚ) / 2) = master from by ring]
  · refine ⟨oldSong, ?_, ?_⟩
    · rw [lookup_bgmUpdateAt_ne hne]
      exact hlo
    · rw [hov, show master * (1 - (0:ℚ) / 2) = master from by ring]
  · refine ⟨(newSong.setMasterVolume 0).play, ?_, ?_⟩
    · rw [lookup_bgmUpdateAt_eq, hln]
      rfl
    · rw [mtPlay_masterVolume, mtSetMasterVolume_masterVolume,
        show master * ((0:ℚ) / 2) = 0 from by ring]
      exact sdlClamp_eq_self (le_refl 0) zero_le_one


/-- C1: starting `playWithCrossfade(newId, 2.0)` from a playing song
`oldId` registered at the full master volume, and ticking `update` with
nonnegative measured delta times: once the accumulated elapsed time is
exactly 1 second, both the fading-out and the fading-in song have master
volume `master / 2`; once it reaches 2 seconds or more, both fades are
disarmed, the fade-out slot has released its song, the old song is
stopped at volume 0, and the new song sits at the full master volume. -/
theorem c1_crossfade_timeline
    (m0 : BGMManager) (oldId newId : String)
    (oldSong newSong : MultiTrackSequencer) (master : ℚ)
    (hold : oldId ≠ "") (hne : oldId ≠ newId)
    (hcur : m0.currentBgmId = oldId) (hmv : m0.masterVolume = master)
    (hpos : 0 < master) (hle : master ≤ 1)
    (hlo : m0.bgmMap.lookup oldId = some oldSong)
    (hln : m0.bgmMap.lookup newId = some newSong)
    (hov : oldSong.masterVolume = master)
    (ds : List ℚ) (hds : ∀ d ∈ ds, 0 ≤ d) :
    (ds.sum = 1 →
      ∃ os ns,
        (BGMManager.runTicks ds
          ((BGMManager.playWithCrossfade newId 2 m0).2)).bgmMap.lookup oldId
            = some os ∧
        (BGMManager.runTicks ds
          ((BGMManager.playWithCrossfade newId 2 m0).2)).bgmMap.lookup newId
            = some ns ∧
        os.masterVolume = master / 2 ∧ ns.masterVolume = master / 2) ∧
    (2 ≤ ds.sum →
      (BGMManager.runTicks ds
        ((BGMManager.playWithCrossfade newId 2 m0).2)).fadeIn.isFading = false ∧
      (BGMManager.runTicks ds
        ((BGMManager.playWithCrossfade newId 2 m0).2)).fadeOut.isFading = false ∧
      (BGMManager.runTicks ds
        ((BGMManager.playWithCrossfade newId 2 m0).2)).fadeOut.bgm = none ∧
      (∃ os,
        (BGMManager.runTicks ds
          ((BGMManager.playWithCrossfade newId 2 m0).2)).bgmMap.lookup oldId
            = some os ∧
        os.masterVolume = 0 ∧ os.isPlaying = false) ∧
      (∃ ns,
        (BGMManager.runTicks ds
          ((BGMManager.playWithCrossfade newId 2 m0).2)).bgmMap.lookup newId
            = some ns ∧
        ns.masterVolume = master)) := by
  have hstart := crossfade_start m0 oldId newId oldSong newSong master hold hne
    hcur hmv hlo hln hov
  constructor
  · intro hsum
    have hrun := crossfadeMid_run master oldId newId hne hpos hle ds 0
      ((BGMManager.playWithCrossfade newId 2 m0).2) hds (le_refl 0)
      (by rw [hsum]; norm_num) hstart
    rw [hsum] at hrun
    obtain ⟨-, -, -, -, ⟨os, hos, hosv⟩, ⟨ns, hns, hnsv⟩⟩ := hrun
    refine ⟨os, ns, hos, hns, ?_, ?_⟩
    · rw [hosv]
      ring
    · rw [hnsv]
      ring
  · intro hsum
    have hdone := crossfadeMid_reach master oldId newId hne hpos hle ds 0
      ((BGMManager.playWithCrossfade newId 2 m0).2) hds (le_refl 0)
      (by norm_num) (by rw [zero_add]; exact hsum) hstart
    obtain ⟨-, -, hfi, hfo, hfb, hosx, hnsx⟩ := hdone
    exact ⟨hfi, hfo, hfb, hosx, hnsx⟩

/-- C1 witness: two registered songs "a" and "b" at master volume 1; one
1-second tick lands the crossfade midpoint, one 2-second tick completes
it. -/
theorem c1_crossfade_timeline_witness :
    (∃ os ns,
      (BGMManager.runTicks [1]
        ((BGMManager.playWithCrossfade "b" 2 c1WitnessMgr).2)).bgmMap.lookup "a"
          = some os ∧
      (BGMManager.runTicks [1]
        ((BGMManager.playWithCrossfade "b" 2 c1WitnessMgr).2)).bgmMap.lookup "b"
          = some ns ∧
      os.masterVolume = 1 / 2 ∧ ns.masterVolume = 1 / 2) ∧
    ((BGMManager.runTicks [2]
        ((BGMManager.playWithCrossfade "b" 2 c1WitnessMgr).2)).fadeIn.isFading
          = false ∧
      (BGMManager.runTicks [2]
        ((BGMManager.playWithCrossfade "b" 2 c1WitnessMgr).2)).fadeOut.isFading
          = false ∧
      (BGMManager.runTicks [2]
        ((BGMManager.playWithCrossfade "b" 2 c1WitnessMgr).2)).fadeOut.bgm
          = none ∧
      (∃ os,
        (BGMManager.runTicks [2]
          ((BGMManager.playWithCrossfade "b" 2 c1WitnessMgr).2)).bgmMap.lookup "a"
            = some os ∧
        os.masterVolume = 0 ∧ os.isPlaying = false) ∧
      (∃ ns,
        (BGMManager.runTicks [2]
          ((BGMManager.playWithCrossfade "b" 2 c1WitnessMgr).2)).bgmMap.lookup "b"
            = some ns ∧
        ns.masterVolume = 1)) := by
  have h1 := c1_crossfade_timeline c1WitnessMgr "a" "b" c1WitnessSong c1WitnessSong
    1 (by decide) (by decide) rfl rfl (by norm_num) (by norm_num) rfl rfl rfl [1]
    (by
      intro d hd
      rw [List.mem_singleton] at hd
      subst hd
      norm_num)
  have h2 := c1_crossfade_timeline c1WitnessMgr "a" "b" c1WitnessSong c1WitnessSong
    1 (by decide) (by decide) rfl rfl (by norm_num) (by norm_num) rfl rfl rfl [2]
    (by
      intro d hd
      rw [List.mem_singleton] at hd
      subst hd
      norm_num)
  refine ⟨h1.1 (by simp), h2.2 (by simp)⟩

end MySound
